import Mathlib

/-
Verification development for the SymPy engine wrapper
(src/src/python/engine.py).

The Python module is shallowly embedded: the engine's own control flow
(task dispatch, calling-convention probing, serialization, batching) is
translated function-by-function into executable Lean definitions, while
the SymPy library itself -- an opaque capability provider, per the design
document -- is abstracted as a record of operations (`SympyLib E`) over an
arbitrary type `E` of library objects.  Python exceptions are modelled by
`PyErr` and fallible calls return `Except PyErr _`.  Python `None` and the
heterogeneous values that flow through arguments and results are modelled
by `PyVal E`.

Modelling conventions, noted where they matter:
  * numeric substitution values (Python floats) are modelled as `Int`;
    the engine only stores and forwards them, never computes with them;
  * Python `set` values are modelled as deduplicated lists; every consumer
    in the source sorts before use, which the embedding mirrors;
  * Python string quoting inside error messages is dropped (the quote
    character is reserved in this development);
  * `str.isidentifier` is modelled on its ASCII fragment;
  * `importlib`-based dotted-path resolution (engine.py lines 149-172) is
    abstracted into the library record as `resolveDotted`.
-/

set_option maxRecDepth 10000
set_option maxHeartbeats 1000000

/- ------------------------------------------------------------------ -/
/- Python-level value and error model                                  -/
/- ------------------------------------------------------------------ -/

inductive PyErr where
  | typeError (msg : String)
  | valueError (msg : String)
  | attributeError (msg : String)
  | otherError (kindName msg : String)
deriving DecidableEq

def PyErr.isTypeError : PyErr → Bool
  | .typeError _ => true
  | _ => false

def PyErr.pyName : PyErr → String
  | .typeError _ => "TypeError"
  | .valueError _ => "ValueError"
  | .attributeError _ => "AttributeError"
  | .otherError k _ => k

def PyErr.pyMsg : PyErr → String
  | .typeError m => m
  | .valueError m => m
  | .attributeError m => m
  | .otherError _ m => m

inductive PyVal (E : Type) where
  | pyNone : PyVal E
  | str : String → PyVal E
  | int : Int → PyVal E
  | bool : Bool → PyVal E
  | obj : E → PyVal E
  | list : List (PyVal E) → PyVal E
  | tuple : List (PyVal E) → PyVal E
  | dict : List (String × PyVal E) → PyVal E

/-- Python `isinstance(v, list)`. -/
def isListP {E : Type} : PyVal E → Bool
  | .list _ => true
  | _ => false

/-- Python `v is None or isinstance(v, str)`. -/
def isNoneOrStr {E : Type} : PyVal E → Bool
  | .pyNone => true
  | .str _ => true
  | _ => false

/- ------------------------------------------------------------------ -/
/- String helpers mirroring the Python string operations used          -/
/- ------------------------------------------------------------------ -/

/-- Code-point lexicographic non-strict comparison on character lists,
the order Python uses to compare strings. -/
def lexLe : List Char → List Char → Bool
  | [], _ => true
  | _ :: _, [] => false
  | a :: as, b :: bs =>
    if a.toNat < b.toNat then true
    else if b.toNat < a.toNat then false
    else lexLe as bs

def strLe (a b : String) : Bool := lexLe a.data b.data

/-- Insertion into a sorted list, stable for equal keys
(mirrors the stability of Python `sorted`). -/
def insertByKey {α : Type} (key : α → String) (x : α) : List α → List α
  | [] => [x]
  | y :: ys => if strLe (key x) (key y) then x :: y :: ys else y :: insertByKey key x ys

/-- Python `sorted(l, key=...)` for string keys. -/
def sortByKey {α : Type} (key : α → String) : List α → List α
  | [] => []
  | x :: xs => insertByKey key x (sortByKey key xs)

/-- Python `sorted(l)` for a list of strings. -/
def sortStrings (l : List String) : List String := sortByKey (fun s => s) l

/-- ASCII fragment of the whitespace stripped by Python `str.strip()`. -/
def isPySpace (c : Char) : Bool :=
  c = ' ' || c = '\t' || c = '\n' || c = '\r' || c.toNat = 11 || c.toNat = 12

/-- Python `str.strip()`. -/
def pyStrip (s : String) : String :=
  ⟨((s.data.dropWhile isPySpace).reverse.dropWhile isPySpace).reverse⟩

/-- Python `name.startswith("_")`. -/
def startsWithUnderscore (s : String) : Bool :=
  match s.data with
  | '_' :: _ => true
  | _ => false

/-- needle is a prefix of hay. -/
def headMatches : List Char → List Char → Bool
  | [], _ => true
  | _ :: _, [] => false
  | a :: as, b :: bs => a = b && headMatches as bs

def hasSegment (needle : List Char) : List Char → Bool
  | [] => headMatches needle []
  | c :: rest => headMatches needle (c :: rest) || hasSegment needle rest

/-- Python `sub in s` for strings. -/
def strContains (s sub : String) : Bool := hasSegment sub.data s.data

def isIdentStart (c : Char) : Bool := c.isAlpha || c = '_'

def isIdentCont (c : Char) : Bool := c.isAlphanum || c = '_'

/-- Python `str.isidentifier()`, ASCII fragment. -/
def pyIsIdentifier (s : String) : Bool :=
  match s.data with
  | [] => false
  | c :: cs => isIdentStart c && cs.all isIdentCont

/-- Python `dict.get(k)` over an association list with distinct keys
(insertion order preserved, as for a Python dict). -/
def lookupStr {α : Type} (k : String) : List (String × α) → Option α
  | [] => none
  | (k2, v) :: rest => if k2 = k then some v else lookupStr k rest

/-- Python truthiness of an optional list-like value:
`None` and the empty collection are falsy. -/
def truthyList {α : Type} : Option (List α) → Bool
  | some (_ :: _) => true
  | _ => false

/-- Python truthiness of an optional string: `None` and `""` are falsy.
Returns the string exactly when it is truthy. -/
def strOpt : Option String → Option String
  | some s => if s = "" then none else some s
  | none => none

/- ------------------------------------------------------------------ -/
/- The abstracted SymPy library                                        -/
/- ------------------------------------------------------------------ -/

/-- A Python callable invoked as `f(*args, **kwargs)`. -/
def GCallable (E : Type) : Type :=
  List (PyVal E) → List (String × PyVal E) → Except PyErr (PyVal E)

/-- What `getattr(sympy, name)` can yield: a callable or a non-callable
attribute. -/
inductive TopObj (E : Type) where
  | callableObj : GCallable E → TopObj E
  | nonCallable : TopObj E

/-- The SymPy library as seen by engine.py: an opaque capability provider.
`topLevel` models `getattr(sympy, name)` (with `none` for a missing
attribute); `resolveDotted` abstracts the importlib-based dotted-path
lookup of engine.py lines 149-172; `dirNames` models `dir(sympy)`;
`sympify` models `sympy.sympify(text, locals=_predeclare_symbols(names))`
given the sorted symbol-name list; the remaining fields model the library
functions, methods and predicates the engine uses directly.  The two final
fields record laws Python guarantees by construction:
`str(Symbol(name)) == name` and `str` of a string is itself. -/
structure SympyLib (E : Type) where
  topLevel : String → Option (TopObj E)
  resolveDotted : String → Option (GCallable E)
  dirNames : List String
  sympify : String → List String → Except PyErr (PyVal E)
  symbol : String → E
  symName : E → String
  freeSyms : E → List E
  isEquality : E → Bool
  substApply : PyVal E → List (String × Int) → Except PyErr (PyVal E)
  removeO : PyVal E → Except PyErr (PyVal E)
  hasDet : E → Bool
  hasInv : E → Bool
  hasT : E → Bool
  detM : E → Except PyErr (PyVal E)
  invM : E → Except PyErr (PyVal E)
  transM : E → Except PyErr (PyVal E)
  pyStr : PyVal E → String
  latexR : PyVal E → Except PyErr String
  symName_symbol : ∀ s, symName (symbol s) = s
  pyStr_str : ∀ s, pyStr (.str s) = s

/-- Python `getattr(sympy, attr)(args..., kwargs...)`: calling a missing
attribute raises `AttributeError`, calling a non-callable raises
`TypeError`. -/
def SympyLib.callTop {E : Type} (lib : SympyLib E) (attr : String)
    (args : List (PyVal E)) (kw : List (String × PyVal E)) : Except PyErr (PyVal E) :=
  match lib.topLevel attr with
  | some (.callableObj f) => f args kw
  | some .nonCallable => .error (.typeError ("object (" ++ attr ++ ") is not callable"))
  | none => .error (.attributeError ("module sympy has no attribute " ++ attr))

/- ------------------------------------------------------------------ -/
/- Operation Resolver (engine.py lines 118-173)                        -/
/- ------------------------------------------------------------------ -/

/-- The static alias table of `_resolve_sympy_callable`
(engine.py lines 129-139). -/
def alias_map : List (String × String) :=
  [("differentiate", "diff"),
   ("derivative", "diff"),
   ("d", "diff"),
   ("laplace", "laplace_transform"),
   ("invlaplace", "inverse_laplace_transform"),
   ("fourier", "fourier_transform"),
   ("invfourier", "inverse_fourier_transform"),
   ("z", "ztransform"),
   ("invz", "inverse_ztransform")]

/-- `alias_map.get(name, name)`. -/
def aliasApply (s : String) : String := (lookupStr s alias_map).getD s

/-- engine.py lines 118-173, `_resolve_sympy_callable`.  The `op` argument
is always a string here, so the `isinstance` guard reduces to the
emptiness test on the stripped name.  `len(name.split(".")) > 1` is
equivalently rendered as a substring test for the dot. -/
def _resolve_sympy_callable {E : Type} (lib : SympyLib E) (op : String) :
    Option (GCallable E) :=
  if pyStrip op = "" then none
  else
    let nm := aliasApply (pyStrip op)
    match lib.topLevel nm with
    | some (.callableObj f) => some f
    | some .nonCallable => none
    | none => if strContains nm (".") then lib.resolveDotted nm else none

/- ------------------------------------------------------------------ -/
/- Task discovery (engine.py lines 34-46) and the engine task list      -/
/- ------------------------------------------------------------------ -/

/-- engine.py lines 34-44, `_discover_sympy_tasks_fallback`:
walk `dir(sympy)`, keep names that do not start with an underscore whose
attribute is callable, extend with the three friendly aliases, and return
`sorted(set(...))`. -/
def _discover_sympy_tasks_fallback {E : Type} (lib : SympyLib E) : List String :=
  let discovered := lib.dirNames.filter
    (fun n =>
      !startsWithUnderscore n &&
      (match lib.topLevel n with
       | some (.callableObj _) => true
       | _ => false))
  sortStrings ((discovered ++ ["differentiate", "derivative", "d"]).dedup)

/-- engine.py line 46, the module-level `TASKS` list. -/
def TASKS {E : Type} (lib : SympyLib E) : List String :=
  _discover_sympy_tasks_fallback lib

/-- engine.py lines 462-464, the `SympyEngine.tasks` property
(`list(TASKS)`). -/
def engineTasks {E : Type} (lib : SympyLib E) : List String := TASKS lib

/- ------------------------------------------------------------------ -/
/- Request and response data model (engine.py lines 93-112)            -/
/- ------------------------------------------------------------------ -/

/-- engine.py lines 93-104, `ComputeRequest`.  `timeout_sec` is advisory
only and never read by the compute core, so it is omitted.  Substitution
values (Python floats) are modelled as `Int`; they are only stored and
forwarded. -/
structure ComputeRequest (E : Type) where
  expr : String
  task : String
  var : Option String
  subs : Option (List (String × Int))
  solve_for : Option String
  series_order : Option Int
  kwargs : List (String × PyVal E)
  args : Option (List (PyVal E))

/-- The `meta` dictionary of a response: `limit_point` is set only by the
limit fast path, `free_symbols` is always set at serialization. -/
structure RespMeta where
  limit_point : Option Int
  free_symbols : List String
deriving DecidableEq

/-- engine.py lines 106-109, `ComputeResponse`. -/
structure ComputeResponse where
  result_str : String
  result_latex : Option String
  meta : RespMeta
deriving DecidableEq

/-- One entry of the list returned by `SympyEngine.batch`
(engine.py lines 452-460). -/
inductive BatchItem where
  | okItem : ComputeResponse → BatchItem
  | errItem : String → BatchItem
deriving DecidableEq

deriving instance DecidableEq for Except

/- ------------------------------------------------------------------ -/
/- Argument parsing (engine.py lines 190-207)                          -/
/- ------------------------------------------------------------------ -/

/-- engine.py lines 190-207, `_parse_arg`: strings are attempted as
expressions and kept verbatim when parsing fails, lists are rebuilt as
tuples element-wise, dict values are rebuilt, everything else passes
through. -/
def _parse_arg {E : Type} (lib : SympyLib E) (symNames : List String) :
    PyVal E → PyVal E
  | .str s =>
    match lib.sympify s symNames with
    | .ok v => v
    | .error _ => .str s
  | .list xs => .tuple (xs.attach.map (fun a => _parse_arg lib symNames a.1))
  | .dict kvs => .dict (kvs.attach.map (fun kv => (kv.1.1, _parse_arg lib symNames kv.1.2)))
  | v => v
decreasing_by
  · have := List.sizeOf_lt_of_mem a.2
    simp only [PyVal.list.sizeOf_spec]
    omega
  · have h1 := List.sizeOf_lt_of_mem kv.2
    have h2 : sizeOf kv.1.2 < sizeOf kv.1 := by
      obtain ⟨a, b⟩ := kv.1
      simp only [Prod.mk.sizeOf_spec]
      omega
    simp only [PyVal.dict.sizeOf_spec]
    omega

/- ------------------------------------------------------------------ -/
/- Symbol-name collection (engine.py lines 214-231)                    -/
/- ------------------------------------------------------------------ -/

/-- engine.py lines 224-231: scan generic args for identifier-looking
strings, one level deep into lists. -/
def scanArgNames {E : Type} : List (PyVal E) → List String
  | [] => []
  | .str s :: rest => (if pyIsIdentifier s then [s] else []) ++ scanArgNames rest
  | .list xs :: rest =>
    (xs.filterMap (fun a =>
      match a with
      | .str s2 => if pyIsIdentifier s2 then some s2 else none
      | _ => none)) ++ scanArgNames rest
  | _ :: rest => scanArgNames rest

/-- engine.py lines 214-231: the `sym_names` set, modelled as a sorted
deduplicated list (every consumer sorts the set before use). -/
def computeSymNames {E : Type} (payload : ComputeRequest E) : List String :=
  let fromSubs := if truthyList payload.subs then (payload.subs.getD []).map Prod.fst else []
  let fromVar := match strOpt payload.var with | some s => [s] | none => []
  let fromSolve := match strOpt payload.solve_for with | some s => [s] | none => []
  let fromArgs := if truthyList payload.args then scanArgNames (payload.args.getD []) else []
  sortStrings ((fromSubs ++ fromVar ++ fromSolve ++ fromArgs).dedup)

/- ------------------------------------------------------------------ -/
/- Fast-path dispatch (engine.py lines 236-349)                        -/
/- ------------------------------------------------------------------ -/

/-- engine.py lines 302-304: the `evalf` branch reassigns `expr` to its
substituted form before calling `sympy.N`; the reassigned expression is
also the one later used for `free_symbols`.  For every other task the
expression is unchanged. -/
def evalfExpr {E : Type} (lib : SympyLib E) (payload : ComputeRequest E)
    (expr : PyVal E) : Except PyErr (PyVal E) :=
  if payload.task = "evalf" ∧ truthyList payload.subs = true then
    lib.substApply expr (payload.subs.getD [])
  else .ok expr

/-- engine.py lines 278-290, the `solve` fast path: wrap a non-equation as
`Eq(expr, 0)`; choose the given target, else the first free symbol in name
order; with no free symbols fall through (`res` stays `None`), modelled by
returning `PyVal.pyNone`. -/
def solveFastPath {E : Type} (lib : SympyLib E) (expr : PyVal E)
    (sFor : Option E) : Except PyErr (PyVal E) :=
  let targetE : Except PyErr (PyVal E) :=
    match expr with
    | .obj e => if lib.isEquality e then .ok expr else lib.callTop ("Eq") [expr, .int 0] []
    | _ => lib.callTop ("Eq") [expr, .int 0] []
  match targetE with
  | .error e => .error e
  | .ok target =>
    let chosen : Except PyErr (Option E) :=
      match sFor with
      | some s => .ok (some s)
      | none =>
        match expr with
        | .obj e =>
          match sortByKey lib.symName (lib.freeSyms e) with
          | [] => .ok none
          | s :: _ => .ok (some s)
        | _ => .error (.attributeError ("free_symbols"))
    match chosen with
    | .error e => .error e
    | .ok none => .ok .pyNone
    | .ok (some s) => lib.callTop ("solve") [target, .obj s] [("dict", .bool true)]

/-- engine.py lines 308 and 321: the bound variable for `limit`/`series`:
`var` if truthy, else the first free symbol in name order, else
`Symbol("x")`; accessing `free_symbols` on an object without the attribute
raises. -/
def chooseLimitSym {E : Type} (lib : SympyLib E) (expr : PyVal E)
    (v : Option E) : Except PyErr E :=
  match v with
  | some s => .ok s
  | none =>
    match expr with
    | .obj e =>
      match sortByKey lib.symName (lib.freeSyms e) with
      | [] => .ok (lib.symbol ("x"))
      | s :: _ => .ok s
    | _ => .error (.attributeError ("free_symbols"))

/-- engine.py lines 309-318, the `limit` fast path after the bound
variable has been chosen.  The evaluation point is `subs.get(str(sym), 0)`
when `subs` is truthy, else `0`; the chosen variable is excluded from the
substitution map applied before the limit; `kwargs["dir"]`, when present
and not `None`, is forwarded as `dir=str(direction)`.  Returns the result
and the recorded limit point. -/
def limitWithSym {E : Type} (lib : SympyLib E) (payload : ComputeRequest E)
    (expr : PyVal E) (sym : E) : Except PyErr (PyVal E × Int) :=
  let symStr := lib.symName sym
  let point : Int :=
    if truthyList payload.subs then (lookupStr symStr (payload.subs.getD [])).getD 0 else 0
  let otherSubs := (payload.subs.getD []).filter (fun p => p.1 != symStr)
  match lib.substApply expr otherSubs with
  | .error e => .error e
  | .ok expr2 =>
    let callRes :=
      match lookupStr ("dir") payload.kwargs with
      | some .pyNone => lib.callTop ("limit") [expr2, .obj sym, .int point] []
      | some d => lib.callTop ("limit") [expr2, .obj sym, .int point] [("dir", .str (lib.pyStr d))]
      | none => lib.callTop ("limit") [expr2, .obj sym, .int point] []
    match callRes with
    | .error e => .error e
    | .ok r => .ok (r, point)

/-- engine.py lines 307-318, the `limit` fast path. -/
def limitFastPath {E : Type} (lib : SympyLib E) (payload : ComputeRequest E)
    (expr : PyVal E) (v : Option E) : Except PyErr (PyVal E × Int) :=
  match chooseLimitSym lib expr v with
  | .error e => .error e
  | .ok sym => limitWithSym lib payload expr sym

/-- engine.py lines 320-324, the `series` fast path:
`int(series_order or 6)` (so `0` and `None` both become 6), center from
`(subs or empty).get(str(sym), 0)`, then `removeO()`. -/
def seriesFastPath {E : Type} (lib : SympyLib E) (payload : ComputeRequest E)
    (expr : PyVal E) (v : Option E) : Except PyErr (PyVal E) :=
  match chooseLimitSym lib expr v with
  | .error e => .error e
  | .ok sym =>
    let order : Int :=
      match payload.series_order with
      | some n => if n = 0 then 6 else n
      | none => 6
    let center : Int := (lookupStr (lib.symName sym) (payload.subs.getD [])).getD 0
    match lib.callTop ("series") [expr, .obj sym, .int center, .int order] [] with
    | .error e => .error e
    | .ok r => lib.removeO r

/-- engine.py lines 247-349, the fast-path `if/elif` chain of
`_do_compute`.  Each task literal occurs in exactly one branch condition,
so the chain is transcribed as a `match` on the task name with the
`not payload.args` guards kept inside each arm.  The result component is
`PyVal.pyNone` exactly when the Python variable `res` is still `None`
after the chain (no branch matched, or a matched branch deliberately fell
through), in which case `_do_compute` continues with the generic path.
For `evalf` the expression has already been substituted by `evalfExpr`.
The second component is the `limit_point` metadata entry. -/
def dispatchFast {E : Type} (lib : SympyLib E) (payload : ComputeRequest E)
    (expr : PyVal E) (v sFor : Option E) : Except PyErr (PyVal E × Option Int) :=
  let argsT := truthyList payload.args
  let subsT := truthyList payload.subs
  let subsL := payload.subs.getD []
  match payload.task with
  | "simplify" =>
    if argsT then .ok (.pyNone, none)
    else
      match lib.callTop ("simplify") [expr] [] with
      | .error e => .error e
      | .ok r =>
        if subsT then
          match lib.substApply r subsL with
          | .error e => .error e
          | .ok r2 => .ok (r2, none)
        else .ok (r, none)
  | "expand" =>
    if argsT then .ok (.pyNone, none)
    else (lib.callTop ("expand") [expr] []).map (fun r => (r, none))
  | "factor" =>
    if argsT then .ok (.pyNone, none)
    else (lib.callTop ("factor") [expr] []).map (fun r => (r, none))
  | "collect" =>
    if argsT then .ok (.pyNone, none)
    else
      match v with
      | none => .error (.valueError ("Provide var for collect."))
      | some vv => (lib.callTop ("collect") [expr, .obj vv] []).map (fun r => (r, none))
  | "cancel" =>
    if argsT then .ok (.pyNone, none)
    else (lib.callTop ("cancel") [expr] []).map (fun r => (r, none))
  | "apart" =>
    if argsT then .ok (.pyNone, none)
    else
      match v with
      | some vv => (lib.callTop ("apart") [expr, .obj vv] []).map (fun r => (r, none))
      | none => (lib.callTop ("apart") [expr] []).map (fun r => (r, none))
  | "together" =>
    if argsT then .ok (.pyNone, none)
    else (lib.callTop ("together") [expr] []).map (fun r => (r, none))
  | "trigsimp" =>
    if argsT then .ok (.pyNone, none)
    else (lib.callTop ("trigsimp") [expr] []).map (fun r => (r, none))
  | "ratsimp" =>
    if argsT then .ok (.pyNone, none)
    else (lib.callTop ("ratsimp") [expr] []).map (fun r => (r, none))
  | "solve" =>
    if argsT then .ok (.pyNone, none)
    else (solveFastPath lib expr sFor).map (fun r => (r, none))
  | "diff" =>
    if argsT then .ok (.pyNone, none)
    else
      match v with
      | none => .error (.valueError ("Provide var for differentiation."))
      | some vv => (lib.callTop ("diff") [expr, .obj vv] []).map (fun r => (r, none))
  | "integrate" =>
    if argsT then .ok (.pyNone, none)
    else
      match v with
      | none => .error (.valueError ("Provide var for integration."))
      | some vv => (lib.callTop ("integrate") [expr, .obj vv] []).map (fun r => (r, none))
  | "evalf" =>
    (lib.callTop ("N") [expr] []).map (fun r => (r, none))
  | "limit" =>
    if argsT then .ok (.pyNone, none)
    else (limitFastPath lib payload expr v).map (fun rp => (rp.1, some rp.2))
  | "series" =>
    if argsT then .ok (.pyNone, none)
    else (seriesFastPath lib payload expr v).map (fun r => (r, none))
  | "subs" =>
    if !subsT && !argsT then .error (.valueError ("Provide subs mapping for substitution."))
    else if subsT then (lib.substApply expr subsL).map (fun r => (r, none))
    else .ok (.pyNone, none)
  | "det" =>
    match expr with
    | .obj e =>
      if lib.hasDet e then (lib.detM e).map (fun r => (r, none))
      else .error (.valueError ("Expression is not a matrix; cannot compute determinant."))
    | _ => .error (.valueError ("Expression is not a matrix; cannot compute determinant."))
  | "inv" =>
    match expr with
    | .obj e =>
      if lib.hasInv e then (lib.invM e).map (fun r => (r, none))
      else .error (.valueError ("Expression is not a matrix; cannot compute inverse."))
    | _ => .error (.valueError ("Expression is not a matrix; cannot compute inverse."))
  | "transpose" =>
    match expr with
    | .obj e =>
      if lib.hasT e then (lib.transM e).map (fun r => (r, none))
      else .error (.valueError ("Expression is not a matrix; cannot transpose."))
    | _ => .error (.valueError ("Expression is not a matrix; cannot transpose."))
  | _ => .ok (.pyNone, none)

/- ------------------------------------------------------------------ -/
/- Generic invocation (engine.py lines 351-418)                        -/
/- ------------------------------------------------------------------ -/

/-- engine.py lines 374-375: `payload.kwargs.setdefault("noconds", True)`
when the task name contains "laplace" (a dict `setdefault` appends the new
entry at the end). -/
def setdefaultNoconds {E : Type} (task : String) (kw : List (String × PyVal E)) :
    List (String × PyVal E) :=
  if strContains task ("laplace") then
    match lookupStr ("noconds") kw with
    | some _ => kw
    | none => kw ++ [("noconds", .bool true)]
  else kw

/-- engine.py lines 378-414, the signature-probing loop.  Attempts, in
order: `(expr, sym1, sym2)`, the swapped form for tasks containing
"inverse", `(expr, sym1)` -- each abandoned only on `TypeError` -- and
finally `(expr)` whose handler catches every exception; when the final
attempt fails, the engine raises the `ValueError` on line 414 carrying the
last caught error, which at that point is always the final attempt's own
error. -/
def probeConventions {E : Type} (task : String) (func : GCallable E)
    (expr : PyVal E) (sym1 sym2 : Option E) (kw : List (String × PyVal E)) :
    Except PyErr (PyVal E) :=
  let att3 : Except PyErr (PyVal E) :=
    match func [expr] kw with
    | .ok r => .ok r
    | .error e =>
      .error (.valueError ("Unable to call sympy." ++ task ++ " with provided arguments: " ++ e.pyMsg))
  let att2 : Except PyErr (PyVal E) :=
    match sym1 with
    | some s1 =>
      match func [expr, .obj s1] kw with
      | .ok r => .ok r
      | .error e => if e.isTypeError then att3 else .error e
    | none => att3
  let att1b : Except PyErr (PyVal E) :=
    match sym1, sym2 with
    | some s1, some s2 =>
      if strContains task ("inverse") then
        match func [expr, .obj s2, .obj s1] kw with
        | .ok r => .ok r
        | .error e => if e.isTypeError then att2 else .error e
      else att2
    | _, _ => att2
  match sym1, sym2 with
  | some s1, some s2 =>
    match func [expr, .obj s1, .obj s2] kw with
    | .ok r => .ok r
    | .error e => if e.isTypeError then att1b else .error e
  | _, _ => att1b

/-- engine.py lines 351-418, the generic fallback / main path entered when
`res` is still `None` after the fast-path chain: resolve the callable
(else `ValueError: Unsupported SymPy operation`), then either a single
call `func(expr, *parsedArgs, **kwargs)` when generic args are present, or
the probing strategy; a probe that succeeds with result `None` falls
through to the final `func(*call_args, **kwargs)` on lines 417-418. -/
def genericPath {E : Type} (lib : SympyLib E) (payload : ComputeRequest E)
    (expr : PyVal E) (symNames : List String) : Except PyErr (PyVal E) :=
  match _resolve_sympy_callable lib payload.task with
  | none => .error (.valueError ("Unsupported SymPy operation: " ++ payload.task))
  | some func =>
    let argsT := truthyList payload.args
    let callArgs : List (PyVal E) :=
      if argsT then expr :: (payload.args.getD []).map (fun a => _parse_arg lib symNames a)
      else [expr]
    let kw := if argsT then payload.kwargs else setdefaultNoconds payload.task payload.kwargs
    let probed : Except PyErr (PyVal E) :=
      if argsT then .ok .pyNone
      else
        probeConventions payload.task func expr
          ((strOpt payload.var).map lib.symbol)
          ((strOpt payload.solve_for).map lib.symbol) kw
    match probed with
    | .error e => .error e
    | .ok .pyNone => func callArgs kw
    | .ok r => .ok r

/- ------------------------------------------------------------------ -/
/- Result normalization (engine.py lines 420-437)                      -/
/- ------------------------------------------------------------------ -/

/-- engine.py lines 432-435: the `free_symbols` metadata entry is computed
from the expression object at serialization time; an object without the
attribute yields the empty list. -/
def fsOf {E : Type} (lib : SympyLib E) : PyVal E → List String
  | .obj e => sortStrings ((lib.freeSyms e).map lib.symName)
  | _ => []

/-- engine.py lines 420-437: serialization.  For `solve` with a list
result, `latex` is called outside any handler; otherwise `str` rendering
never fails, a string result is used verbatim as the notation, and a
failing `latex` call degrades the notation to the plain text. -/
def normalizeResp {E : Type} (lib : SympyLib E) (task : String)
    (exprVal res : PyVal E) (lp : Option Int) : Except PyErr ComputeResponse :=
  let fs := fsOf lib exprVal
  if task = "solve" && isListP res then
    match lib.latexR res with
    | .error e => .error e
    | .ok l => .ok ⟨lib.pyStr res, some l, ⟨lp, fs⟩⟩
  else
    let rs := lib.pyStr res
    let rl : Option String :=
      match res with
      | .pyNone => none
      | .str s => some s
      | r =>
        match lib.latexR r with
        | .ok l => some l
        | .error _ => some rs
    .ok ⟨rs, rl, ⟨lp, fs⟩⟩

/- ------------------------------------------------------------------ -/
/- The compute core (engine.py lines 213-437)                          -/
/- ------------------------------------------------------------------ -/

/-- engine.py lines 351-437 after the fast-path chain: when `res` is still
`None` run the generic path, then serialize. -/
def afterFast {E : Type} (lib : SympyLib E) (payload : ComputeRequest E)
    (symNames : List String) (exprVal res0 : PyVal E) (lp : Option Int) :
    Except PyErr ComputeResponse :=
  let res1E : Except PyErr (PyVal E) :=
    match res0 with
    | .pyNone => genericPath lib payload exprVal symNames
    | r => .ok r
  match res1E with
  | .error e => .error e
  | .ok res1 => normalizeResp lib payload.task exprVal res1 lp

/-- engine.py lines 213-437, `_do_compute`. -/
def _do_compute {E : Type} (lib : SympyLib E) (payload : ComputeRequest E) :
    Except PyErr ComputeResponse :=
  let symNames := computeSymNames payload
  match lib.sympify payload.expr symNames with
  | .error e => .error e
  | .ok expr0 =>
    match evalfExpr lib payload expr0 with
    | .error e => .error e
    | .ok expr1 =>
      let v := (strOpt payload.var).map lib.symbol
      let sFor :=
        match strOpt payload.solve_for with
        | some s => some (lib.symbol s)
        | none => (strOpt payload.var).map lib.symbol
      match dispatchFast lib payload expr1 v sFor with
      | .error e => .error e
      | .ok (res0, lp) => afterFast lib payload symNames expr1 res0 lp

/-- The pipeline with the fast-path chain skipped entirely: parse, run the
Generic Invocation Strategy, serialize.  Used to state that a request is
"processed by the generic path". -/
def computeViaGeneric {E : Type} (lib : SympyLib E) (payload : ComputeRequest E) :
    Except PyErr ComputeResponse :=
  let symNames := computeSymNames payload
  match lib.sympify payload.expr symNames with
  | .error e => .error e
  | .ok expr0 =>
    match genericPath lib payload expr0 symNames with
    | .error e => .error e
    | .ok res => normalizeResp lib payload.task expr0 res none

/-- engine.py lines 452-460, `SympyEngine.batch`: sequential iteration,
each item isolated, failures converted to a tagged error string. -/
def batchRun {E : Type} (lib : SympyLib E) : List (ComputeRequest E) → List BatchItem
  | [] => []
  | item :: rest =>
    (match _do_compute lib item with
     | .ok d => .okItem d
     | .error e => .errItem (e.pyName ++ ": " ++ e.pyMsg)) :: batchRun lib rest

/- ------------------------------------------------------------------ -/
/- Spec-side description of the limit fast path (for refinement)       -/
/- ------------------------------------------------------------------ -/

/-- The limit behaviour as the specification words it, written for
comparison against `_do_compute`: the bound variable is the request's
`variable` if given, else the lexicographically first free symbol, else a
symbol named "x"; the evaluation point is `substitutions[variable]` when
present, else 0, and is recorded in the metadata; every substitution entry
except the chosen variable's is applied before the limit; a present `dir`
keyword argument is forwarded. -/
def limitSpecWithSym {E : Type} (lib : SympyLib E) (payload : ComputeRequest E)
    (pv : PyVal E) (sym : E) (symStr : String) : Except PyErr ComputeResponse :=
  let point : Int := (lookupStr symStr (payload.subs.getD [])).getD 0
  let applied := (payload.subs.getD []).filter (fun p => p.1 != symStr)
  match lib.substApply pv applied with
  | .error e => .error e
  | .ok pv2 =>
    let callRes :=
      match lookupStr ("dir") payload.kwargs with
      | some d => lib.callTop ("limit") [pv2, .obj sym, .int point] [("dir", .str (lib.pyStr d))]
      | none => lib.callTop ("limit") [pv2, .obj sym, .int point] []
    match callRes with
    | .error e => .error e
    | .ok r => normalizeResp lib payload.task pv r (some point)

def limitSpecResponse {E : Type} (lib : SympyLib E) (payload : ComputeRequest E) :
    Except PyErr ComputeResponse :=
  match lib.sympify payload.expr (computeSymNames payload) with
  | .error e => .error e
  | .ok pv =>
    let symE : Except PyErr (E × String) :=
      match strOpt payload.var with
      | some s => .ok (lib.symbol s, s)
      | none =>
        match pv with
        | .obj e =>
          match sortByKey lib.symName (lib.freeSyms e) with
          | s :: _ => .ok (s, lib.symName s)
          | [] => .ok (lib.symbol ("x"), "x")
        | _ => .error (.attributeError ("free_symbols"))
    match symE with
    | .error e => .error e
    | .ok (sym, symStr) => limitSpecWithSym lib payload pv sym symStr

/- ------------------------------------------------------------------ -/
/- A small concrete library instance used for witnesses                -/
/- ------------------------------------------------------------------ -/

/-- Toy expression type instantiating the abstract library interface for
concrete witnesses and counterexamples. -/
inductive TE where
  | num : Int → TE
  | sym : String → TE
  | add : TE → TE → TE
  | mul : TE → TE → TE
  | eqn : TE → TE → TE
deriving DecidableEq

def teFree : TE → List TE
  | .num _ => []
  | .sym s => [.sym s]
  | .add a b => (teFree a ++ teFree b).dedup
  | .mul a b => (teFree a ++ teFree b).dedup
  | .eqn a b => (teFree a ++ teFree b).dedup

def teName : TE → String
  | .sym s => s
  | _ => "expr"

def teIsEq : TE → Bool
  | .eqn _ _ => true
  | _ => false

def teStr : TE → String
  | .num _ => "num"
  | .sym s => s
  | .add a b => "(" ++ teStr a ++ "+" ++ teStr b ++ ")"
  | .mul a b => "(" ++ teStr a ++ "*" ++ teStr b ++ ")"
  | .eqn a b => "Eq(" ++ teStr a ++ "," ++ teStr b ++ ")"

/-- Toy `str()`: container contents are elided so that the printer stays
structurally recursive. -/
def pyStrT : PyVal TE → String
  | .pyNone => "None"
  | .str s => s
  | .int _ => "int"
  | .bool true => "True"
  | .bool false => "False"
  | .obj e => teStr e
  | .list _ => "list"
  | .tuple _ => "tuple"
  | .dict _ => "dict"

/-- Toy `latex()`: fails on the marker symbol "bad". -/
def latexT (v : PyVal TE) : Except PyErr String :=
  match v with
  | .obj (.sym ("bad")) => .error (.otherError ("LatexError") ("boom"))
  | v => .ok ("L<" ++ pyStrT v ++ ">")

def substT (e : TE) (subs : List (String × Int)) : TE :=
  match e with
  | .num n => .num n
  | .sym s =>
    match lookupStr s subs with
    | some v => .num v
    | none => .sym s
  | .add a b => .add (substT a subs) (substT b subs)
  | .mul a b => .mul (substT a subs) (substT b subs)
  | .eqn a b => .eqn (substT a subs) (substT b subs)

def substApplyT (v : PyVal TE) (subs : List (String × Int)) : Except PyErr (PyVal TE) :=
  match v with
  | .obj e => .ok (.obj (substT e subs))
  | _ => .error (.attributeError ("subs"))

def diffT (e : TE) (s : String) : TE :=
  match e with
  | .num _ => .num 0
  | .sym s2 => if s2 = s then .num 1 else .num 0
  | .add a b => .add (diffT a s) (diffT b s)
  | .mul a b => .add (.mul (diffT a s) b) (.mul a (diffT b s))
  | .eqn a b => .eqn (diffT a s) (diffT b s)

def sympifyT (s : String) (_names : List String) : Except PyErr (PyVal TE) :=
  match s with
  | "x" => .ok (.obj (.sym ("x")))
  | "y" => .ok (.obj (.sym ("y")))
  | "2" => .ok (.obj (.num 2))
  | "x*y" => .ok (.obj (.mul (.sym ("x")) (.sym ("y"))))
  | "x+y" => .ok (.obj (.add (.sym ("x")) (.sym ("y"))))
  | "x**2-4" => .ok (.obj (.add (.mul (.sym ("x")) (.sym ("x"))) (.num (-4))))
  | _ => .error (.otherError ("SympifyError") ("could not parse " ++ s))

/-- Toy `sympy.diff` callable: with one argument it differentiates with
respect to the sole free symbol (failing on ambiguity), with two or three
arguments it differentiates successively. -/
def diffCallableT : GCallable TE := fun args _kw =>
  match args with
  | [.obj e] =>
    match teFree e with
    | [] => .ok (.obj (.num 0))
    | [.sym s] => .ok (.obj (diffT e s))
    | _ => .error (.valueError ("ambiguous differentiation variable"))
  | [.obj e, .obj (.sym s)] => .ok (.obj (diffT e s))
  | [.obj e, .obj (.sym s1), .obj (.sym s2)] => .ok (.obj (diffT (diffT e s1) s2))
  | _ => .error (.typeError ("diff argument mismatch"))

/-- Toy `sympy.limit` callable: always returns a string marker. -/
def limitCallableT : GCallable TE := fun _args _kw => .ok (.str ("limit-res"))

def solveCallableT : GCallable TE := fun args _kw =>
  match args with
  | [_] => .ok (.list [])
  | [_, _] => .ok (.list [])
  | _ => .error (.typeError ("solve argument mismatch"))

def eqCallableT : GCallable TE := fun args _kw =>
  match args with
  | [.obj a, .int z] => .ok (.obj (.eqn a (.num z)))
  | [.obj a, .obj b] => .ok (.obj (.eqn a b))
  | _ => .error (.typeError ("Eq argument mismatch"))

def topLevelT : String → Option (TopObj TE)
  | "diff" => some (.callableObj diffCallableT)
  | "limit" => some (.callableObj limitCallableT)
  | "solve" => some (.callableObj solveCallableT)
  | "Eq" => some (.callableObj eqCallableT)
  | "simplify" => some (.callableObj (fun args _kw =>
      match args with
      | [v] => .ok v
      | _ => .error (.typeError ("simplify argument mismatch"))))
  | "N" => some (.callableObj (fun args _kw =>
      match args with
      | [v] => .ok (.str ("N(" ++ pyStrT v ++ ")"))
      | _ => .error (.typeError ("N argument mismatch"))))
  | "evalf" => some (.callableObj (fun _args _kw => .ok (.str ("generic-evalf"))))
  | "opaque_op" => some (.callableObj (fun _args _kw => .error (.valueError ("domain failure"))))
  | "badlatex_op" => some (.callableObj (fun _args _kw => .ok (.obj (.sym ("bad")))))
  | "sin" => some (.callableObj (fun args _kw =>
      match args with
      | [v] => .ok v
      | _ => .error (.typeError ("sin argument mismatch"))))
  | "pi" => some .nonCallable
  | _ => none

def TestLib : SympyLib TE :=
  ⟨topLevelT,
   fun _ => none,
   ["_private", "diff", "pi", "sin", "solve"],
   sympifyT,
   TE.sym,
   teName,
   teFree,
   teIsEq,
   substApplyT,
   fun v => .ok v,
   fun _ => false,
   fun _ => false,
   fun _ => false,
   fun _ => .error (.valueError ("no det")),
   fun _ => .error (.valueError ("no inv")),
   fun _ => .error (.valueError ("no transpose")),
   pyStrT,
   latexT,
   fun _ => rfl,
   fun _ => rfl⟩

/- Concrete requests used by witnesses and counterexamples. -/

/-- Request: generic task whose resolved operation raises a domain-level
(non-TypeError) failure in the final probing convention. -/
def reqC1 : ComputeRequest TE :=
  ⟨"x", "opaque_op", none, none, none, some 6, [], none⟩

/-- Request: `evalf` with a non-empty generic argument list. -/
def reqC2 : ComputeRequest TE :=
  ⟨"x", "evalf", none, none, none, some 6, [], some [.int 1]⟩

/-- Request: `solve` on an expression with no free symbols and no solve
target. -/
def reqC3 : ComputeRequest TE :=
  ⟨"2", "solve", none, none, none, some 6, [], none⟩

/-- Request: `limit` with a variable and substitutions. -/
def reqC4 : ComputeRequest TE :=
  ⟨"x*y", "limit", some ("x"), some [("x", 5), ("y", 3)], none, some 6, [], none⟩

/-- Requests: `diff` versus `derivative` with no variable. -/
def reqC5diff : ComputeRequest TE :=
  ⟨"x", "diff", none, none, none, some 6, [], none⟩

def reqC5deriv : ComputeRequest TE :=
  ⟨"x", "derivative", none, none, none, some 6, [], none⟩

/-- Request: a malformed expression (fails to parse). -/
def reqC6bad : ComputeRequest TE :=
  ⟨"%%%", "simplify", none, none, none, some 6, [], none⟩

/-- Request: `solve` whose result is a raw list while the parsed
expression has a free symbol. -/
def reqC7 : ComputeRequest TE :=
  ⟨"x**2-4", "solve", none, none, none, some 6, [], none⟩

/-- A concrete callable that raises a signature mismatch for every calling
convention except the single-argument one, where it raises a domain-level
failure: it drives the probing loop through every convention. -/
def probeTestFunc : GCallable TE := fun args _kw =>
  match args with
  | [_] => .error (.valueError ("domain failure"))
  | _ => .error (.typeError ("arity mismatch"))

/- ------------------------------------------------------------------ -/
/- Order lemmas for the string sort                                    -/
/- ------------------------------------------------------------------ -/

theorem lexLe_total : ∀ a b, lexLe a b = true ∨ lexLe b a = true := by
  intro a
  induction a with
  | nil => intro b; left; rfl
  | cons x xs ih =>
    intro b
    cases b with
    | nil => right; rfl
    | cons y ys =>
      simp only [lexLe]
      rcases Nat.lt_trichotomy x.toNat y.toNat with h | h | h
      · left; simp [h]
      · have h2 : ¬ x.toNat < y.toNat := by omega
        have h3 : ¬ y.toNat < x.toNat := by omega
        simpa [h2, h3] using ih ys
      · right; simp [h]

theorem lexLe_trans : ∀ a b c, lexLe a b = true → lexLe b c = true → lexLe a c = true := by
  intro a
  induction a with
  | nil => intro b c _ _; rfl
  | cons x xs ih =>
    intro b c h1 h2
    cases b with
    | nil => simp [lexLe] at h1
    | cons y ys =>
      cases c with
      | nil => simp [lexLe] at h2
      | cons z zs =>
        simp only [lexLe] at h1 h2 ⊢
        rcases Nat.lt_trichotomy x.toNat y.toNat with hxy | hxy | hxy <;>
          rcases Nat.lt_trichotomy y.toNat z.toNat with hyz | hyz | hyz <;>
          first
            | (simp only [if_pos (by omega : x.toNat < z.toNat)])
            | (have c1 : ¬ x.toNat < z.toNat := by omega
               have c2 : ¬ z.toNat < x.toNat := by omega
               simp only [if_neg c1, if_neg c2]
               have e1 : ¬ x.toNat < y.toNat := by omega
               have e2 : ¬ y.toNat < x.toNat := by omega
               have f1 : ¬ y.toNat < z.toNat := by omega
               have f2 : ¬ z.toNat < y.toNat := by omega
               simp only [if_neg e1, if_neg e2] at h1
               simp only [if_neg f1, if_neg f2] at h2
               exact ih ys zs h1 h2)
            | (exfalso
               have e1 : ¬ x.toNat < y.toNat := by omega
               simp only [if_neg e1, if_pos (by omega : y.toNat < x.toNat)] at h1
               exact Bool.noConfusion h1)
            | (exfalso
               have f1 : ¬ y.toNat < z.toNat := by omega
               simp only [if_neg f1, if_pos (by omega : z.toNat < y.toNat)] at h2
               exact Bool.noConfusion h2)

theorem strLe_total (a b : String) : strLe a b = true ∨ strLe b a = true :=
  lexLe_total a.data b.data

theorem strLe_trans {a b c : String} (h1 : strLe a b = true) (h2 : strLe b c = true) :
    strLe a c = true :=
  lexLe_trans a.data b.data c.data h1 h2

theorem insertByKey_perm {α : Type} (key : α → String) (x : α) :
    ∀ l : List α, (insertByKey key x l).Perm (x :: l) := by
  intro l
  induction l with
  | nil => exact List.Perm.refl _
  | cons y ys ih =>
    simp only [insertByKey]
    by_cases h : strLe (key x) (key y) = true
    · simp only [if_pos h]; exact List.Perm.refl _
    · simp only [if_neg h]
      exact ((ih.cons y).trans (List.Perm.swap x y ys))

theorem sortByKey_perm {α : Type} (key : α → String) :
    ∀ l : List α, (sortByKey key l).Perm l := by
  intro l
  induction l with
  | nil => exact List.Perm.refl _
  | cons x xs ih =>
    simp only [sortByKey]
    exact (insertByKey_perm key x (sortByKey key xs)).trans (ih.cons x)

theorem mem_sortByKey {α : Type} {key : α → String} {a : α} {l : List α} :
    a ∈ sortByKey key l ↔ a ∈ l :=
  (sortByKey_perm key l).mem_iff

theorem insertByKey_pairwise {α : Type} {key : α → String} {x : α} {l : List α}
    (h : l.Pairwise (fun a b => strLe (key a) (key b) = true)) :
    (insertByKey key x l).Pairwise (fun a b => strLe (key a) (key b) = true) := by
  induction l with
  | nil => simp [insertByKey]
  | cons y ys ih =>
    rcases List.pairwise_cons.mp h with ⟨hy, hys⟩
    simp only [insertByKey]
    by_cases hc : strLe (key x) (key y) = true
    · simp only [if_pos hc]
      refine List.pairwise_cons.mpr ⟨?_, h⟩
      intro z hz
      rcases List.mem_cons.mp hz with rfl | hz2
      · exact hc
      · exact strLe_trans hc (hy z hz2)
    · simp only [if_neg hc]
      refine List.pairwise_cons.mpr ⟨?_, ih hys⟩
      intro z hz
      have hz2 := (insertByKey_perm key x ys).mem_iff.mp hz
      rcases List.mem_cons.mp hz2 with hzx | hz3
      · rcases strLe_total (key x) (key y) with h1 | h1
        · exact absurd h1 hc
        · simpa [hzx] using h1
      · exact hy z hz3

theorem sortByKey_pairwise {α : Type} (key : α → String) :
    ∀ l : List α, (sortByKey key l).Pairwise (fun a b => strLe (key a) (key b) = true) := by
  intro l
  induction l with
  | nil => simp [sortByKey]
  | cons x xs ih =>
    simp only [sortByKey]
    exact insertByKey_pairwise ih

/- ------------------------------------------------------------------ -/
/- C9                                                                  -/
/- ------------------------------------------------------------------ -/

/-- C9 (counterexample): `listTasks` does not contain every static alias
name of the resolver's alias table.  On the concrete library instance the
task list is the sorted union of the callable top-level names with only
the three friendly aliases; the alias-table key "invlaplace" is absent,
so the list differs from the sorted duplicate-free union the claim
describes. -/
theorem c9_counterexample :
    engineTasks TestLib = ["d", "derivative", "diff", "differentiate", "sin", "solve"]
    ∧ "invlaplace" ∈ alias_map.map Prod.fst
    ∧ "invlaplace" ∉ engineTasks TestLib
    ∧ engineTasks TestLib ≠
        sortStrings (((TestLib.dirNames.filter
          (fun n =>
            !startsWithUnderscore n &&
            (match TestLib.topLevel n with
             | some (.callableObj _) => true
             | _ => false))) ++ alias_map.map Prod.fst).dedup) := by
  refine ⟨by decide, by decide, by decide, by decide⟩

/-- C9 (amended): `listTasks` returns a sorted, duplicate-free list whose
members are exactly the callable, non-underscore top-level names of the
library namespace together with the three friendly alias names
"differentiate", "derivative" and "d" (not the full alias table of the
resolver). -/
theorem c9_tasks_listing {E : Type} (lib : SympyLib E) :
    List.Pairwise (fun a b => strLe a b = true) (engineTasks lib)
    ∧ (engineTasks lib).Nodup
    ∧ ∀ s : String, s ∈ engineTasks lib ↔
        ((s ∈ lib.dirNames ∧ startsWithUnderscore s = false ∧
          ∃ f, lib.topLevel s = some (.callableObj f))
         ∨ s ∈ (["differentiate", "derivative", "d"] : List String)) := by
  have hmatch : ∀ s : String,
      ((match lib.topLevel s with
        | some (.callableObj _) => true
        | _ => false) = true) ↔ ∃ f, lib.topLevel s = some (.callableObj f) := by
    intro s
    cases h : lib.topLevel s with
    | none => simp [h]
    | some o =>
      cases o with
      | callableObj f =>
        constructor
        · intro _; exact ⟨f, rfl⟩
        · intro _; rfl
      | nonCallable =>
        constructor
        · intro hfalse; exact Bool.noConfusion hfalse
        · rintro ⟨f2, hf2⟩; exact TopObj.noConfusion (Option.some.inj hf2)
  refine ⟨?_, ?_, ?_⟩
  · have := sortByKey_pairwise (fun s : String => s)
      (((lib.dirNames.filter
        (fun n =>
          !startsWithUnderscore n &&
          (match lib.topLevel n with
           | some (.callableObj _) => true
           | _ => false))) ++ ["differentiate", "derivative", "d"]).dedup)
    simpa [engineTasks, TASKS, _discover_sympy_tasks_fallback, sortStrings] using this
  · have hperm := sortByKey_perm (fun s : String => s)
      (((lib.dirNames.filter
        (fun n =>
          !startsWithUnderscore n &&
          (match lib.topLevel n with
           | some (.callableObj _) => true
           | _ => false))) ++ ["differentiate", "derivative", "d"]).dedup)
    have hnd : (((lib.dirNames.filter
        (fun n =>
          !startsWithUnderscore n &&
          (match lib.topLevel n with
           | some (.callableObj _) => true
           | _ => false))) ++ ["differentiate", "derivative", "d"]).dedup).Nodup :=
      List.nodup_dedup _
    have := (hperm.nodup_iff).mpr hnd
    simpa [engineTasks, TASKS, _discover_sympy_tasks_fallback, sortStrings] using this
  · intro s
    have hperm := sortByKey_perm (fun s : String => s)
      (((lib.dirNames.filter
        (fun n =>
          !startsWithUnderscore n &&
          (match lib.topLevel n with
           | some (.callableObj _) => true
           | _ => false))) ++ ["differentiate", "derivative", "d"]).dedup)
    have hmem : s ∈ engineTasks lib ↔
        s ∈ ((lib.dirNames.filter
          (fun n =>
            !startsWithUnderscore n &&
            (match lib.topLevel n with
             | some (.callableObj _) => true
             | _ => false))) ++ ["differentiate", "derivative", "d"]) := by
      rw [show engineTasks lib = sortByKey (fun s : String => s)
        (((lib.dirNames.filter
          (fun n =>
            !startsWithUnderscore n &&
            (match lib.topLevel n with
             | some (.callableObj _) => true
             | _ => false))) ++ ["differentiate", "derivative", "d"]).dedup) from rfl]
      rw [hperm.mem_iff]
      exact List.mem_dedup
    rw [hmem, List.mem_append, List.mem_filter]
    constructor
    · rintro (⟨hd, hp⟩ | ha)
      · rw [Bool.and_eq_true] at hp
        rcases hp with ⟨h1, h2⟩
        exact Or.inl ⟨hd, by simpa using h1, (hmatch s).mp h2⟩
      · exact Or.inr ha
    · rintro (⟨hd, h1, h2⟩ | ha)
      · refine Or.inl ⟨hd, ?_⟩
        rw [Bool.and_eq_true]
        exact ⟨by simpa using h1, (hmatch s).mpr h2⟩
      · exact Or.inr ha

/-- C9 (witness): the amended listing theorem instantiated at the concrete
library. -/
theorem c9_tasks_listing_witness :
    List.Pairwise (fun a b => strLe a b = true) (engineTasks TestLib)
    ∧ (engineTasks TestLib).Nodup
    ∧ ∀ s : String, s ∈ engineTasks TestLib ↔
        ((s ∈ TestLib.dirNames ∧ startsWithUnderscore s = false ∧
          ∃ f, TestLib.topLevel s = some (.callableObj f))
         ∨ s ∈ (["differentiate", "derivative", "d"] : List String)) :=
  c9_tasks_listing TestLib

/- ------------------------------------------------------------------ -/
/- C6                                                                  -/
/- ------------------------------------------------------------------ -/

/-- C6: `computeBatch` returns one entry per request, in input order:
entry `i` is the tagged success carrying the response exactly when
`compute` succeeds on request `i`, and otherwise the tagged failure string
`kind: message`; items are processed independently (each entry depends
only on its own request) and `batchRun` is a total function, so no input
batch makes it propagate a failure. -/
theorem c6_batch_isolation {E : Type} (lib : SympyLib E) (items : List (ComputeRequest E)) :
    (batchRun lib items).length = items.length
    ∧ ∀ (i : Nat), i < items.length → ∀ (dflt : BatchItem) (dreq : ComputeRequest E),
        (batchRun lib items).getD i dflt =
          (match _do_compute lib (items.getD i dreq) with
           | .ok d => BatchItem.okItem d
           | .error e => BatchItem.errItem (e.pyName ++ ": " ++ e.pyMsg)) := by
  induction items with
  | nil =>
    refine ⟨rfl, ?_⟩
    intro i hi
    exact absurd hi (by simp)
  | cons item rest ih =>
    refine ⟨by simpa [batchRun] using ih.1, ?_⟩
    intro i hi dflt dreq
    cases i with
    | zero => simp [batchRun]
    | succ n =>
      have hn : n < rest.length := by simpa using hi
      simpa [batchRun] using ih.2 n hn dflt dreq

/-- C6 (witness): a batch containing a malformed request yields a tagged
failure entry at its position. -/
theorem c6_batch_isolation_witness :
    (0 < ([reqC6bad] : List (ComputeRequest TE)).length)
    ∧ (batchRun TestLib [reqC6bad]).getD 0 (BatchItem.errItem ("")) =
        (match _do_compute TestLib (([reqC6bad] : List (ComputeRequest TE)).getD 0 reqC6bad) with
         | .ok d => BatchItem.okItem d
         | .error e => BatchItem.errItem (e.pyName ++ ": " ++ e.pyMsg)) :=
  ⟨by decide, (c6_batch_isolation TestLib [reqC6bad]).2 0 (by decide) (BatchItem.errItem ("")) reqC6bad⟩

/- ------------------------------------------------------------------ -/
/- C8                                                                  -/
/- ------------------------------------------------------------------ -/

/-- C8: `parseArgument` is a total function (it never raises, in
particular not for non-expression strings): a string that fails to parse
is returned unchanged, a string that parses becomes the parsed value,
lists are rebuilt element-wise as ordered tuples, mappings are rebuilt
value-wise with their keys preserved, and every other value passes through
unchanged. -/
theorem c8_parse_argument {E : Type} (lib : SympyLib E) (symNames : List String) :
    (∀ s e, lib.sympify s symNames = .error e → _parse_arg lib symNames (.str s) = .str s)
    ∧ (∀ s v, lib.sympify s symNames = .ok v → _parse_arg lib symNames (.str s) = v)
    ∧ (∀ xs, _parse_arg lib symNames (.list xs)
          = .tuple (xs.map (fun a => _parse_arg lib symNames a)))
    ∧ (∀ kvs, _parse_arg lib symNames (.dict kvs)
          = .dict (kvs.map (fun kv => (kv.1, _parse_arg lib symNames kv.2))))
    ∧ (∀ n, _parse_arg lib symNames (.int n) = .int n)
    ∧ (∀ b, _parse_arg lib symNames (.bool b) = .bool b)
    ∧ (∀ e, _parse_arg lib symNames (.obj e) = .obj e)
    ∧ _parse_arg lib symNames .pyNone = .pyNone
    ∧ (∀ xs, _parse_arg lib symNames (.tuple xs) = .tuple xs) := by
  refine ⟨?_, ?_, ?_, ?_, ?_, ?_, ?_, ?_, ?_⟩
  · intro s e h; simp [_parse_arg, h]
  · intro s v h; simp [_parse_arg, h]
  · intro xs
    rw [_parse_arg]
    rw [List.attach_map_val xs (fun a => _parse_arg lib symNames a)]
  · intro kvs
    rw [_parse_arg]
    rw [List.attach_map_val kvs (fun kv => (kv.1, _parse_arg lib symNames kv.2))]
  · intro n; simp [_parse_arg]
  · intro b; simp [_parse_arg]
  · intro e; simp [_parse_arg]
  · simp [_parse_arg]
  · intro xs; simp [_parse_arg]

/-- C8 (witness): a non-expression string argument is kept verbatim, and
a parsing string becomes the parsed expression, on the concrete library. -/
theorem c8_parse_argument_witness :
    (TestLib.sympify ("%%%") [] = .error (.otherError ("SympifyError") ("could not parse %%%"))
      ∧ _parse_arg TestLib [] (.str ("%%%")) = .str ("%%%"))
    ∧ (TestLib.sympify ("x") [] = .ok (.obj (.sym ("x")))
      ∧ _parse_arg TestLib [] (.str ("x")) = .obj (.sym ("x"))) :=
  ⟨⟨rfl, (c8_parse_argument TestLib []).1 ("%%%") _ rfl⟩,
   ⟨rfl, (c8_parse_argument TestLib []).2.1 ("x") _ rfl⟩⟩

/- ------------------------------------------------------------------ -/
/- C10                                                                 -/
/- ------------------------------------------------------------------ -/

/-- C10: in result normalization, outside the solve-returning-a-list
special case, a string result is used verbatim as the notation field;
otherwise a failing notation rendering makes the notation field mirror
the plain-text rendering rather than become null; consequently the
notation field of a successful response is never null when the result is
non-null (the third part holds even for the solve-list case, whose
rendering either succeeds or fails the whole request). -/
theorem c10_notation_fallback {E : Type} (lib : SympyLib E) (task : String)
    (exprVal : PyVal E) (lp : Option Int) :
    (∀ s, normalizeResp lib task exprVal (.str s) lp
        = .ok ⟨s, some s, ⟨lp, fsOf lib exprVal⟩⟩)
    ∧ (∀ res e2, isNoneOrStr res = false → ¬(task = "solve" ∧ isListP res = true) →
        lib.latexR res = .error e2 →
        normalizeResp lib task exprVal res lp
          = .ok ⟨lib.pyStr res, some (lib.pyStr res), ⟨lp, fsOf lib exprVal⟩⟩)
    ∧ (∀ res resp, res ≠ .pyNone → normalizeResp lib task exprVal res lp = .ok resp →
        resp.result_latex ≠ none) := by
  refine ⟨?_, ?_, ?_⟩
  · intro s
    have hc : (decide (task = "solve") && isListP (PyVal.str s : PyVal E)) = false := by
      simp [isListP]
    simp [normalizeResp, hc, lib.pyStr_str]
  · intro res e2 hns hsol hlat
    have hc : (decide (task = "solve") && isListP res) = false := by
      by_cases ht : task = "solve"
      · rcases Bool.eq_false_or_eq_true (isListP res) with h | h
        · exact absurd ⟨ht, h⟩ hsol
        · simp [h]
      · simp [ht]
    cases res with
    | pyNone => simp [isNoneOrStr] at hns
    | str s => simp [isNoneOrStr] at hns
    | int n => simp [normalizeResp, hc, hlat]
    | bool b => simp [normalizeResp, hc, hlat]
    | obj e => simp [normalizeResp, hc, hlat]
    | list xs => simp [normalizeResp, hc, hlat]
    | tuple xs => simp [normalizeResp, hc, hlat]
    | dict kvs => simp [normalizeResp, hc, hlat]
  · intro res resp hnn hok
    by_cases hcond : (decide (task = "solve") && isListP res) = true
    · simp only [normalizeResp, hcond, if_true] at hok
      rcases hlt : lib.latexR res with e | l
      · rw [hlt] at hok; exact Except.noConfusion hok
      · rw [hlt] at hok
        have := Except.ok.inj hok
        rw [← this]
        simp
    · have hc2 : (decide (task = "solve") && isListP res) = false :=
        Bool.eq_false_iff.mpr hcond
      cases res with
      | pyNone => exact absurd rfl hnn
      | str s =>
        simp only [normalizeResp, hc2, Bool.false_eq_true, if_false] at hok
        have := Except.ok.inj hok
        rw [← this]
        simp
      | int n =>
        simp only [normalizeResp, hc2, Bool.false_eq_true, if_false] at hok
        rcases hlt : lib.latexR (PyVal.int n : PyVal E) with e | l <;>
          rw [hlt] at hok <;>
          (have h9 := Except.ok.inj hok; rw [← h9]; simp)
      | bool b =>
        simp only [normalizeResp, hc2, Bool.false_eq_true, if_false] at hok
        rcases hlt : lib.latexR (PyVal.bool b : PyVal E) with e | l <;>
          rw [hlt] at hok <;>
          (have h9 := Except.ok.inj hok; rw [← h9]; simp)
      | obj e0 =>
        simp only [normalizeResp, hc2, Bool.false_eq_true, if_false] at hok
        rcases hlt : lib.latexR (PyVal.obj e0 : PyVal E) with e | l <;>
          rw [hlt] at hok <;>
          (have h9 := Except.ok.inj hok; rw [← h9]; simp)
      | list xs =>
        simp only [normalizeResp, hc2, Bool.false_eq_true, if_false] at hok
        rcases hlt : lib.latexR (PyVal.list xs : PyVal E) with e | l <;>
          rw [hlt] at hok <;>
          (have h9 := Except.ok.inj hok; rw [← h9]; simp)
      | tuple xs =>
        simp only [normalizeResp, hc2, Bool.false_eq_true, if_false] at hok
        rcases hlt : lib.latexR (PyVal.tuple xs : PyVal E) with e | l <;>
          rw [hlt] at hok <;>
          (have h9 := Except.ok.inj hok; rw [← h9]; simp)
      | dict kvs =>
        simp only [normalizeResp, hc2, Bool.false_eq_true, if_false] at hok
        rcases hlt : lib.latexR (PyVal.dict kvs : PyVal E) with e | l <;>
          rw [hlt] at hok <;>
          (have h9 := Except.ok.inj hok; rw [← h9]; simp)

/-- C10 (witness): on the concrete library a result whose notation
rendering fails serializes with the notation mirroring the plain text. -/
theorem c10_notation_fallback_witness :
    (isNoneOrStr (PyVal.obj (TE.sym ("bad"))) = false
      ∧ ¬("diff" = "solve" ∧ isListP (PyVal.obj (TE.sym ("bad"))) = true)
      ∧ TestLib.latexR (.obj (.sym ("bad"))) = .error (.otherError ("LatexError") ("boom")))
    ∧ normalizeResp TestLib ("diff") (.obj (.sym ("x"))) (.obj (.sym ("bad"))) none
        = .ok ⟨TestLib.pyStr (.obj (.sym ("bad"))), some (TestLib.pyStr (.obj (.sym ("bad")))),
               ⟨none, fsOf TestLib (.obj (.sym ("x")))⟩⟩ :=
  ⟨⟨rfl, by simp, rfl⟩,
   (c10_notation_fallback TestLib ("diff") (.obj (.sym ("x"))) none).2.1
     (.obj (.sym ("bad"))) _ rfl (by simp) rfl⟩

/- ------------------------------------------------------------------ -/
/- C1                                                                  -/
/- ------------------------------------------------------------------ -/

/-- C1 (counterexample): a computational (non-TypeError) failure raised by
the resolved operation during the final probing convention does not
propagate unchanged -- it is converted into the InvocationFailed error
carrying it.  Concretely, a task resolving to an operation that raises a
domain-level ValueError makes `compute` fail with the wrapping
InvocationFailed ValueError, not with the original error. -/
theorem c1_counterexample :
    _do_compute TestLib reqC1
      = .error (.valueError ("Unable to call sympy.opaque_op with provided arguments: domain failure"))
    ∧ _do_compute TestLib reqC1 ≠ .error (.valueError ("domain failure")) := by
  exact ⟨by decide, by decide⟩

/-- C1 (amended): during generic probing, each of the conventions
`(expr, sym1, sym2)`, its swapped variant `(expr, sym2, sym1)` tried for
tasks containing "inverse", and `(expr, sym1)` is abandoned -- with the
next convention tried -- only on a signature-mismatch (TypeError) failure,
while a computational (non-TypeError) failure raised at any of them, in
any chained configuration, propagates to the caller unchanged; the final
convention `(expr)` however catches every failure, so whenever the probing
chain reaches it, InvocationFailed is raised exactly when the final call
fails, carrying that final error, whether it is a signature mismatch or a
computational failure. -/
theorem c1_probe_error_policy {E : Type} (task : String) (func : GCallable E)
    (expr : PyVal E) (s1 s2 : E) (kw : List (String × PyVal E)) :
    (∀ e, func [expr, .obj s1, .obj s2] kw = .error e → e.isTypeError = false →
        probeConventions task func expr (some s1) (some s2) kw = .error e)
    ∧ (∀ r, func [expr, .obj s1, .obj s2] kw = .ok r →
        probeConventions task func expr (some s1) (some s2) kw = .ok r)
    ∧ (∀ e1 e, strContains task ("inverse") = true →
        func [expr, .obj s1, .obj s2] kw = .error e1 → e1.isTypeError = true →
        func [expr, .obj s2, .obj s1] kw = .error e → e.isTypeError = false →
        probeConventions task func expr (some s1) (some s2) kw = .error e)
    ∧ (∀ e1 r, strContains task ("inverse") = true →
        func [expr, .obj s1, .obj s2] kw = .error e1 → e1.isTypeError = true →
        func [expr, .obj s2, .obj s1] kw = .ok r →
        probeConventions task func expr (some s1) (some s2) kw = .ok r)
    ∧ (∀ e1 e, strContains task ("inverse") = false →
        func [expr, .obj s1, .obj s2] kw = .error e1 → e1.isTypeError = true →
        func [expr, .obj s1] kw = .error e → e.isTypeError = false →
        probeConventions task func expr (some s1) (some s2) kw = .error e)
    ∧ (∀ e1 e1b e, strContains task ("inverse") = true →
        func [expr, .obj s1, .obj s2] kw = .error e1 → e1.isTypeError = true →
        func [expr, .obj s2, .obj s1] kw = .error e1b → e1b.isTypeError = true →
        func [expr, .obj s1] kw = .error e → e.isTypeError = false →
        probeConventions task func expr (some s1) (some s2) kw = .error e)
    ∧ (∀ e, func [expr, .obj s1] kw = .error e → e.isTypeError = false →
        probeConventions task func expr (some s1) none kw = .error e)
    ∧ (∀ e1 r, strContains task ("inverse") = false →
        func [expr, .obj s1, .obj s2] kw = .error e1 → e1.isTypeError = true →
        func [expr, .obj s1] kw = .ok r →
        probeConventions task func expr (some s1) (some s2) kw = .ok r)
    ∧ (∀ e1 e2, strContains task ("inverse") = false →
        func [expr, .obj s1, .obj s2] kw = .error e1 → e1.isTypeError = true →
        func [expr, .obj s1] kw = .error e2 → e2.isTypeError = true →
        (∀ r, func [expr] kw = .ok r →
            probeConventions task func expr (some s1) (some s2) kw = .ok r)
        ∧ (∀ e, func [expr] kw = .error e →
            probeConventions task func expr (some s1) (some s2) kw =
              .error (.valueError ("Unable to call sympy." ++ task ++ " with provided arguments: " ++ e.pyMsg))))
    ∧ (∀ e1 e1b e2, strContains task ("inverse") = true →
        func [expr, .obj s1, .obj s2] kw = .error e1 → e1.isTypeError = true →
        func [expr, .obj s2, .obj s1] kw = .error e1b → e1b.isTypeError = true →
        func [expr, .obj s1] kw = .error e2 → e2.isTypeError = true →
        (∀ r, func [expr] kw = .ok r →
            probeConventions task func expr (some s1) (some s2) kw = .ok r)
        ∧ (∀ e, func [expr] kw = .error e →
            probeConventions task func expr (some s1) (some s2) kw =
              .error (.valueError ("Unable to call sympy." ++ task ++ " with provided arguments: " ++ e.pyMsg))))
    ∧ (∀ e2, func [expr, .obj s1] kw = .error e2 → e2.isTypeError = true →
        (∀ r, func [expr] kw = .ok r →
            probeConventions task func expr (some s1) none kw = .ok r)
        ∧ (∀ e, func [expr] kw = .error e →
            probeConventions task func expr (some s1) none kw =
              .error (.valueError ("Unable to call sympy." ++ task ++ " with provided arguments: " ++ e.pyMsg))))
    ∧ (∀ (s2o : Option E) r, func [expr] kw = .ok r →
        probeConventions task func expr none s2o kw = .ok r)
    ∧ (∀ (s2o : Option E) e, func [expr] kw = .error e →
        probeConventions task func expr none s2o kw =
          .error (.valueError ("Unable to call sympy." ++ task ++ " with provided arguments: " ++ e.pyMsg))) := by
  refine ⟨?_, ?_, ?_, ?_, ?_, ?_, ?_, ?_, ?_, ?_, ?_, ?_, ?_⟩
  · intro e h he
    simp [probeConventions, h, he]
  · intro r h
    simp [probeConventions, h]
  · intro e1 e hinv h1 ht1 h he
    simp [probeConventions, hinv, h1, ht1, h, he]
  · intro e1 r hinv h1 ht1 h
    simp [probeConventions, hinv, h1, ht1, h]
  · intro e1 e hinv h1 ht1 h he
    simp [probeConventions, hinv, h1, ht1, h, he]
  · intro e1 e1b e hinv h1 ht1 h1b ht1b h he
    simp [probeConventions, hinv, h1, ht1, h1b, ht1b, h, he]
  · intro e h he
    simp [probeConventions, h, he]
  · intro e1 r hinv h1 ht1 h
    simp [probeConventions, hinv, h1, ht1, h]
  · intro e1 e2 hinv h1 ht1 h2 ht2
    constructor
    · intro r h3
      simp [probeConventions, hinv, h1, ht1, h2, ht2, h3]
    · intro e h3
      simp [probeConventions, hinv, h1, ht1, h2, ht2, h3]
  · intro e1 e1b e2 hinv h1 ht1 h1b ht1b h2 ht2
    constructor
    · intro r h3
      simp [probeConventions, hinv, h1, ht1, h1b, ht1b, h2, ht2, h3]
    · intro e h3
      simp [probeConventions, hinv, h1, ht1, h1b, ht1b, h2, ht2, h3]
  · intro e2 h2 ht2
    constructor
    · intro r h3
      simp [probeConventions, h2, ht2, h3]
    · intro e h3
      simp [probeConventions, h2, ht2, h3]
  · intro s2o r h
    cases s2o <;> simp [probeConventions, h]
  · intro s2o e h
    cases s2o <;> simp [probeConventions, h]

/-- C1 (witness): the probing policy exercised on a concrete inverse-named
operation that raises signature mismatches on every multi-argument
convention and a domain-level failure on the final one: the outcome is the
wrapping InvocationFailed error, not the domain failure itself. -/
theorem c1_probe_error_policy_witness :
    (strContains ("inverse_op") ("inverse") = true
      ∧ probeTestFunc [PyVal.obj (TE.sym ("e")), PyVal.obj (TE.sym ("x")), PyVal.obj (TE.sym ("y"))] []
          = .error (.typeError ("arity mismatch"))
      ∧ probeTestFunc [PyVal.obj (TE.sym ("e")), PyVal.obj (TE.sym ("y")), PyVal.obj (TE.sym ("x"))] []
          = .error (.typeError ("arity mismatch"))
      ∧ probeTestFunc [PyVal.obj (TE.sym ("e")), PyVal.obj (TE.sym ("x"))] []
          = .error (.typeError ("arity mismatch"))
      ∧ probeTestFunc [PyVal.obj (TE.sym ("e"))] [] = .error (.valueError ("domain failure")))
    ∧ probeConventions ("inverse_op") probeTestFunc (PyVal.obj (TE.sym ("e")))
        (some (TE.sym ("x"))) (some (TE.sym ("y"))) []
        = .error (.valueError ("Unable to call sympy.inverse_op with provided arguments: domain failure")) :=
  ⟨⟨by decide, rfl, rfl, rfl, rfl⟩,
   ((c1_probe_error_policy ("inverse_op") probeTestFunc (PyVal.obj (TE.sym ("e")))
       (TE.sym ("x")) (TE.sym ("y")) []).2.2.2.2.2.2.2.2.2.1
     (.typeError ("arity mismatch")) (.typeError ("arity mismatch")) (.typeError ("arity mismatch"))
     (by decide) rfl rfl rfl rfl rfl rfl).2 _ rfl⟩

/- ------------------------------------------------------------------ -/
/- C2                                                                  -/
/- ------------------------------------------------------------------ -/

theorem evalfExpr_of_ne {E : Type} (lib : SympyLib E) (payload : ComputeRequest E)
    (expr : PyVal E) (hev : payload.task ≠ "evalf") :
    evalfExpr lib payload expr = .ok expr := by
  unfold evalfExpr
  rw [if_neg]
  intro hand
  exact hev hand.1

theorem compute_eq_generic_of_none {E : Type} (lib : SympyLib E)
    (payload : ComputeRequest E) (hev : payload.task ≠ "evalf")
    (hd : ∀ expr v s, dispatchFast lib payload expr v s = .ok (.pyNone, none)) :
    _do_compute lib payload = computeViaGeneric lib payload := by
  cases hs : lib.sympify payload.expr (computeSymNames payload) with
  | error e =>
    simp only [_do_compute, computeViaGeneric, hs]
  | ok expr0 =>
    simp only [_do_compute, computeViaGeneric, hs,
      evalfExpr_of_ne lib payload expr0 hev, hd, afterFast]

/-- The fast-path tasks whose handlers are guarded by the absence of
generic positional arguments. -/
def fastSkipTasks : List String :=
  ["simplify", "expand", "factor", "collect", "cancel", "apart", "together",
   "trigsimp", "ratsimp", "solve", "diff", "integrate", "limit", "series"]

/-- C2 (amended): for the fast-path tasks simplify, expand, factor,
collect, cancel, apart, together, trigsimp, ratsimp, solve, diff,
integrate, limit and series, a request with a non-empty `positionalArgs`
sequence bypasses the fast-path handler and is processed by the Generic
Invocation Strategy; the fast-path entries evalf, det, inv and transpose
ignore `positionalArgs` (and subs consults `substitutions` first), so the
original claim fails for them. -/
theorem c2_args_force_generic {E : Type} (lib : SympyLib E)
    (payload : ComputeRequest E) (htask : payload.task ∈ fastSkipTasks)
    (hargs : truthyList payload.args = true) :
    _do_compute lib payload = computeViaGeneric lib payload := by
  have hev : payload.task ≠ "evalf" := by
    intro h
    rw [h] at htask
    revert htask
    decide
  apply compute_eq_generic_of_none lib payload hev
  intro expr v s
  simp only [fastSkipTasks, List.mem_cons, List.not_mem_nil, or_false] at htask
  rcases htask with h | h | h | h | h | h | h | h | h | h | h | h | h | h <;>
    (unfold dispatchFast; rw [h]; simp [hargs])

/-- C2 (witness): a simplify request carrying positional arguments is
routed through the generic path. -/
theorem c2_args_force_generic_witness :
    ((⟨"x", "simplify", none, none, none, some 6, [], some [PyVal.int 1]⟩ :
        ComputeRequest TE).task ∈ fastSkipTasks
      ∧ truthyList (⟨"x", "simplify", none, none, none, some 6, [],
          some [PyVal.int 1]⟩ : ComputeRequest TE).args = true)
    ∧ _do_compute TestLib
        (⟨"x", "simplify", none, none, none, some 6, [], some [PyVal.int 1]⟩ :
          ComputeRequest TE)
      = computeViaGeneric TestLib
        (⟨"x", "simplify", none, none, none, some 6, [], some [PyVal.int 1]⟩ :
          ComputeRequest TE) :=
  ⟨⟨by decide, by decide⟩,
   c2_args_force_generic TestLib _ (by decide) (by decide)⟩

/-- C2 (counterexample): the claim also lists evalf (and subs, det, inv,
transpose), but an `evalf` request with a non-empty `positionalArgs`
sequence is still handled by the evalf fast path (`sympy.N`), not by the
Generic Invocation Strategy: on the concrete library the two pipelines
give different responses. -/
theorem c2_counterexample :
    _do_compute TestLib reqC2 = .ok ⟨"N(x)", some ("N(x)"), ⟨none, ["x"]⟩⟩
    ∧ computeViaGeneric TestLib reqC2
        = .ok ⟨"generic-evalf", some ("generic-evalf"), ⟨none, ["x"]⟩⟩
    ∧ _do_compute TestLib reqC2 ≠ computeViaGeneric TestLib reqC2 := by
  exact ⟨by decide, by decide, by decide⟩


/- ------------------------------------------------------------------ -/
/- C3                                                                  -/
/- ------------------------------------------------------------------ -/

/-- C3 (counterexample): for `solve` with no positional arguments, a
parsed expression with no free symbols and no given solve target does not
make `compute` fail with a NoSolveTarget error: the corresponding raise is
absent from the code and the request falls through to the generic path,
which on the concrete library succeeds. -/
theorem c3_counterexample :
    _do_compute TestLib reqC3 = .ok ⟨"list", some ("L<list>"), ⟨none, []⟩⟩
    ∧ ∀ e : PyErr, _do_compute TestLib reqC3 ≠ .error e := by
  refine ⟨by decide, ?_⟩
  intro e he
  rw [show _do_compute TestLib reqC3 = .ok ⟨"list", some ("L<list>"), ⟨none, []⟩⟩
    from by decide] at he
  exact Except.noConfusion he

/-- C3 (amended): for task solve with no positional arguments, a
non-equation expression is wrapped as the equation `Eq(expr, 0)` before
solving -- whether the target comes from solveFor (part 1), from the
request variable (part 5), or from the free symbols of the expression
(part 4); with no given target the lexicographically first free symbol of
the parsed expression is solved for, both for equation inputs (part 2) and
for wrapped non-equation inputs (part 4); and when the parsed expression
has no free symbols and no target was given, the request falls through to
the Generic Invocation Strategy instead of failing with a NoSolveTarget
error (part 3). -/
theorem c3_solve_fast_path {E : Type} (lib : SympyLib E)
    (payload : ComputeRequest E) (pv : PyVal E) (e0 : E)
    (htask : payload.task = "solve")
    (hargs : truthyList payload.args = false)
    (hparse : lib.sympify payload.expr (computeSymNames payload) = .ok pv)
    (hobj : pv = .obj e0) :
    (∀ sfs t, strOpt payload.solve_for = some sfs →
        lib.isEquality e0 = false →
        lib.callTop ("Eq") [.obj e0, .int 0] [] = .ok t →
        _do_compute lib payload =
          (match lib.callTop ("solve") [t, .obj (lib.symbol sfs)] [("dict", .bool true)] with
           | .error err => .error err
           | .ok r => afterFast lib payload (computeSymNames payload) (.obj e0) r none))
    ∧ (∀ s0 rest, strOpt payload.solve_for = none → strOpt payload.var = none →
        lib.isEquality e0 = true →
        sortByKey lib.symName (lib.freeSyms e0) = s0 :: rest →
        _do_compute lib payload =
          (match lib.callTop ("solve") [.obj e0, .obj s0] [("dict", .bool true)] with
           | .error err => .error err
           | .ok r => afterFast lib payload (computeSymNames payload) (.obj e0) r none))
    ∧ (∀ t, strOpt payload.solve_for = none → strOpt payload.var = none →
        lib.isEquality e0 = false →
        lib.callTop ("Eq") [.obj e0, .int 0] [] = .ok t →
        sortByKey lib.symName (lib.freeSyms e0) = [] →
        _do_compute lib payload = computeViaGeneric lib payload)
    ∧ (∀ t s0 rest, strOpt payload.solve_for = none → strOpt payload.var = none →
        lib.isEquality e0 = false →
        lib.callTop ("Eq") [.obj e0, .int 0] [] = .ok t →
        sortByKey lib.symName (lib.freeSyms e0) = s0 :: rest →
        _do_compute lib payload =
          (match lib.callTop ("solve") [t, .obj s0] [("dict", .bool true)] with
           | .error err => .error err
           | .ok r => afterFast lib payload (computeSymNames payload) (.obj e0) r none))
    ∧ (∀ vs t, strOpt payload.solve_for = none → strOpt payload.var = some vs →
        lib.isEquality e0 = false →
        lib.callTop ("Eq") [.obj e0, .int 0] [] = .ok t →
        _do_compute lib payload =
          (match lib.callTop ("solve") [t, .obj (lib.symbol vs)] [("dict", .bool true)] with
           | .error err => .error err
           | .ok r => afterFast lib payload (computeSymNames payload) (.obj e0) r none)) := by
  subst hobj
  have hne : payload.task ≠ "evalf" := by rw [htask]; decide
  refine ⟨?_, ?_, ?_, ?_, ?_⟩
  · intro sfs t hsf hneq heq
    have hsolve : solveFastPath lib (.obj e0) (some (lib.symbol sfs)) =
        lib.callTop ("solve") [t, .obj (lib.symbol sfs)] [("dict", .bool true)] := by
      simp only [solveFastPath, hneq, Bool.false_eq_true, if_false, heq]
    have hd : dispatchFast lib payload (.obj e0)
        ((strOpt payload.var).map lib.symbol) (some (lib.symbol sfs)) =
        (lib.callTop ("solve") [t, .obj (lib.symbol sfs)] [("dict", .bool true)]).map
          (fun r => (r, none)) := by
      unfold dispatchFast
      rw [htask]
      simp [hargs, hsolve]
    simp only [_do_compute, hparse, hsf,
      evalfExpr_of_ne lib payload (.obj e0) hne, hd]
    cases hcall : lib.callTop ("solve") [t, .obj (lib.symbol sfs)] [("dict", .bool true)] with
    | error err => simp [hcall, Except.map]
    | ok r => simp [hcall, Except.map]
  · intro s0 rest hsf hv heqq hsort
    have hsolve : solveFastPath lib (.obj e0) none =
        lib.callTop ("solve") [.obj e0, .obj s0] [("dict", .bool true)] := by
      simp only [solveFastPath, heqq, if_true, hsort]
    have hd : dispatchFast lib payload (.obj e0) none none =
        (lib.callTop ("solve") [.obj e0, .obj s0] [("dict", .bool true)]).map
          (fun r => (r, none)) := by
      unfold dispatchFast
      rw [htask]
      simp [hargs, hsolve]
    simp only [_do_compute, hparse, hsf, hv, Option.map,
      evalfExpr_of_ne lib payload (.obj e0) hne, hd]
    cases hcall : lib.callTop ("solve") [.obj e0, .obj s0] [("dict", .bool true)] with
    | error err => simp [hcall, Except.map]
    | ok r => simp [hcall, Except.map]
  · intro t hsf hv hneq heq hsort
    have hsolve : solveFastPath lib (.obj e0) none = .ok .pyNone := by
      simp only [solveFastPath, hneq, Bool.false_eq_true, if_false, heq, hsort]
    have hd : dispatchFast lib payload (.obj e0) none none = .ok (.pyNone, none) := by
      unfold dispatchFast
      rw [htask]
      simp [hargs, hsolve, Except.map]
    simp only [_do_compute, computeViaGeneric, hparse, hsf, hv, Option.map,
      evalfExpr_of_ne lib payload (.obj e0) hne, hd, afterFast]
  · intro t s0 rest hsf hv hneq heq hsort
    have hsolve : solveFastPath lib (.obj e0) none =
        lib.callTop ("solve") [t, .obj s0] [("dict", .bool true)] := by
      simp only [solveFastPath, hneq, Bool.false_eq_true, if_false, heq, hsort]
    have hd : dispatchFast lib payload (.obj e0) none none =
        (lib.callTop ("solve") [t, .obj s0] [("dict", .bool true)]).map
          (fun r => (r, none)) := by
      unfold dispatchFast
      rw [htask]
      simp [hargs, hsolve]
    simp only [_do_compute, hparse, hsf, hv, Option.map,
      evalfExpr_of_ne lib payload (.obj e0) hne, hd]
    cases hcall : lib.callTop ("solve") [t, .obj s0] [("dict", .bool true)] with
    | error err => simp [hcall, Except.map]
    | ok r => simp [hcall, Except.map]
  · intro vs t hsf hv hneq heq
    have hsolve : solveFastPath lib (.obj e0) (some (lib.symbol vs)) =
        lib.callTop ("solve") [t, .obj (lib.symbol vs)] [("dict", .bool true)] := by
      simp only [solveFastPath, hneq, Bool.false_eq_true, if_false, heq]
    have hd : dispatchFast lib payload (.obj e0)
        (some (lib.symbol vs)) (some (lib.symbol vs)) =
        (lib.callTop ("solve") [t, .obj (lib.symbol vs)] [("dict", .bool true)]).map
          (fun r => (r, none)) := by
      unfold dispatchFast
      rw [htask]
      simp [hargs, hsolve]
    simp only [_do_compute, hparse, hsf, hv, Option.map,
      evalfExpr_of_ne lib payload (.obj e0) hne, hd]
    cases hcall : lib.callTop ("solve") [t, .obj (lib.symbol vs)] [("dict", .bool true)] with
    | error err => simp [hcall, Except.map]
    | ok r => simp [hcall, Except.map]

/-- C3 (witness): the canonical case exercised on the concrete library:
solving the non-equation x**2-4 with no target wraps it as Eq(x**2-4, 0)
and solves for the lexicographically first free symbol x. -/
theorem c3_solve_fast_path_witness :
    (reqC7.task = "solve"
      ∧ truthyList reqC7.args = false
      ∧ TestLib.sympify reqC7.expr (computeSymNames reqC7)
          = .ok (.obj (.add (.mul (.sym ("x")) (.sym ("x"))) (.num (-4))))
      ∧ strOpt reqC7.solve_for = none
      ∧ strOpt reqC7.var = none
      ∧ TestLib.isEquality (.add (.mul (.sym ("x")) (.sym ("x"))) (.num (-4))) = false
      ∧ TestLib.callTop ("Eq") [.obj (.add (.mul (.sym ("x")) (.sym ("x"))) (.num (-4))), .int 0] []
          = .ok (.obj (.eqn (.add (.mul (.sym ("x")) (.sym ("x"))) (.num (-4))) (.num 0)))
      ∧ sortByKey TestLib.symName
          (TestLib.freeSyms (.add (.mul (.sym ("x")) (.sym ("x"))) (.num (-4))))
          = [.sym ("x")])
    ∧ _do_compute TestLib reqC7 =
        (match TestLib.callTop ("solve")
            [.obj (.eqn (.add (.mul (.sym ("x")) (.sym ("x"))) (.num (-4))) (.num 0)),
             .obj (.sym ("x"))] [("dict", .bool true)] with
         | .error err => .error err
         | .ok r => afterFast TestLib reqC7 (computeSymNames reqC7)
             (.obj (.add (.mul (.sym ("x")) (.sym ("x"))) (.num (-4)))) r none) :=
  ⟨⟨rfl, rfl, rfl, rfl, rfl, rfl, rfl, rfl⟩,
   (c3_solve_fast_path TestLib reqC7
      (.obj (.add (.mul (.sym ("x")) (.sym ("x"))) (.num (-4))))
      (.add (.mul (.sym ("x")) (.sym ("x"))) (.num (-4))) rfl rfl rfl rfl).2.2.2.1
     (.obj (.eqn (.add (.mul (.sym ("x")) (.sym ("x"))) (.num (-4))) (.num 0)))
     (.sym ("x")) [] rfl rfl rfl rfl rfl⟩

/- ------------------------------------------------------------------ -/
/- C4                                                                  -/
/- ------------------------------------------------------------------ -/

theorem truthyPoint_eq (o : Option (List (String × Int))) (k : String) :
    (if truthyList o then (lookupStr k (o.getD [])).getD (0 : Int) else 0)
      = (lookupStr k (o.getD [])).getD 0 := by
  cases o with
  | none => simp [truthyList, lookupStr]
  | some l =>
    cases l with
    | nil => simp [truthyList, lookupStr]
    | cons h t => simp [truthyList]

theorem c4_limit_tail {E : Type} (lib : SympyLib E) (payload : ComputeRequest E)
    (symNames : List String) (pv : PyVal E) (sym : E) (symStr : String)
    (hname : lib.symName sym = symStr)
    (hdir : lookupStr ("dir") payload.kwargs ≠ some PyVal.pyNone)
    (hnn : ∀ xs kw2, lib.callTop ("limit") xs kw2 ≠ .ok PyVal.pyNone) :
    (match (limitWithSym lib payload pv sym).map (fun rp => (rp.1, some rp.2)) with
     | .error e => (.error e : Except PyErr ComputeResponse)
     | .ok (res0, lp) => afterFast lib payload symNames pv res0 lp)
    = limitSpecWithSym lib payload pv sym symStr := by
  subst hname
  simp only [limitWithSym, limitSpecWithSym, truthyPoint_eq]
  cases hsub : lib.substApply pv
      ((payload.subs.getD []).filter (fun p => p.1 != lib.symName sym)) with
  | error e => simp [Except.map]
  | ok pv2 =>
    simp only [Except.map]
    cases hlk : lookupStr ("dir") payload.kwargs with
    | none =>
      cases hcall : lib.callTop ("limit")
          [pv2, .obj sym, .int ((lookupStr (lib.symName sym) (payload.subs.getD [])).getD 0)] [] with
      | error e => simp [hcall]
      | ok r =>
        simp only [hcall]
        cases r with
        | pyNone => exact absurd hcall (hnn _ _)
        | str s => simp [afterFast]
        | int n => simp [afterFast]
        | bool b => simp [afterFast]
        | obj e2 => simp [afterFast]
        | list xs => simp [afterFast]
        | tuple xs => simp [afterFast]
        | dict kvs => simp [afterFast]
    | some d =>
      cases d with
      | pyNone => exact absurd hlk hdir
      | str s2 =>
        cases hcall : lib.callTop ("limit")
            [pv2, .obj sym, .int ((lookupStr (lib.symName sym) (payload.subs.getD [])).getD 0)]
            [("dir", .str (lib.pyStr (.str s2)))] with
        | error e => simp [hcall]
        | ok r =>
          simp only [hcall]
          cases r with
          | pyNone => exact absurd hcall (hnn _ _)
          | str s => simp [afterFast]
          | int n => simp [afterFast]
          | bool b => simp [afterFast]
          | obj e2 => simp [afterFast]
          | list xs => simp [afterFast]
          | tuple xs => simp [afterFast]
          | dict kvs => simp [afterFast]
      | int n2 =>
        cases hcall : lib.callTop ("limit")
            [pv2, .obj sym, .int ((lookupStr (lib.symName sym) (payload.subs.getD [])).getD 0)]
            [("dir", .str (lib.pyStr (.int n2)))] with
        | error e => simp [hcall]
        | ok r =>
          simp only [hcall]
          cases r with
          | pyNone => exact absurd hcall (hnn _ _)
          | str s => simp [afterFast]
          | int n => simp [afterFast]
          | bool b => simp [afterFast]
          | obj e2 => simp [afterFast]
          | list xs => simp [afterFast]
          | tuple xs => simp [afterFast]
          | dict kvs => simp [afterFast]
      | bool b2 =>
        cases hcall : lib.callTop ("limit")
            [pv2, .obj sym, .int ((lookupStr (lib.symName sym) (payload.subs.getD [])).getD 0)]
            [("dir", .str (lib.pyStr (.bool b2)))] with
        | error e => simp [hcall]
        | ok r =>
          simp only [hcall]
          cases r with
          | pyNone => exact absurd hcall (hnn _ _)
          | str s => simp [afterFast]
          | int n => simp [afterFast]
          | bool b => simp [afterFast]
          | obj e2 => simp [afterFast]
          | list xs => simp [afterFast]
          | tuple xs => simp [afterFast]
          | dict kvs => simp [afterFast]
      | obj e3 =>
        cases hcall : lib.callTop ("limit")
            [pv2, .obj sym, .int ((lookupStr (lib.symName sym) (payload.subs.getD [])).getD 0)]
            [("dir", .str (lib.pyStr (.obj e3)))] with
        | error e => simp [hcall]
        | ok r =>
          simp only [hcall]
          cases r with
          | pyNone => exact absurd hcall (hnn _ _)
          | str s => simp [afterFast]
          | int n => simp [afterFast]
          | bool b => simp [afterFast]
          | obj e2 => simp [afterFast]
          | list xs => simp [afterFast]
          | tuple xs => simp [afterFast]
          | dict kvs => simp [afterFast]
      | list xs2 =>
        cases hcall : lib.callTop ("limit")
            [pv2, .obj sym, .int ((lookupStr (lib.symName sym) (payload.subs.getD [])).getD 0)]
            [("dir", .str (lib.pyStr (.list xs2)))] with
        | error e => simp [hcall]
        | ok r =>
          simp only [hcall]
          cases r with
          | pyNone => exact absurd hcall (hnn _ _)
          | str s => simp [afterFast]
          | int n => simp [afterFast]
          | bool b => simp [afterFast]
          | obj e2 => simp [afterFast]
          | list xs => simp [afterFast]
          | tuple xs => simp [afterFast]
          | dict kvs => simp [afterFast]
      | tuple xs2 =>
        cases hcall : lib.callTop ("limit")
            [pv2, .obj sym, .int ((lookupStr (lib.symName sym) (payload.subs.getD [])).getD 0)]
            [("dir", .str (lib.pyStr (.tuple xs2)))] with
        | error e => simp [hcall]
        | ok r =>
          simp only [hcall]
          cases r with
          | pyNone => exact absurd hcall (hnn _ _)
          | str s => simp [afterFast]
          | int n => simp [afterFast]
          | bool b => simp [afterFast]
          | obj e2 => simp [afterFast]
          | list xs => simp [afterFast]
          | tuple xs => simp [afterFast]
          | dict kvs => simp [afterFast]
      | dict kvs2 =>
        cases hcall : lib.callTop ("limit")
            [pv2, .obj sym, .int ((lookupStr (lib.symName sym) (payload.subs.getD [])).getD 0)]
            [("dir", .str (lib.pyStr (.dict kvs2)))] with
        | error e => simp [hcall]
        | ok r =>
          simp only [hcall]
          cases r with
          | pyNone => exact absurd hcall (hnn _ _)
          | str s => simp [afterFast]
          | int n => simp [afterFast]
          | bool b => simp [afterFast]
          | obj e2 => simp [afterFast]
          | list xs => simp [afterFast]
          | tuple xs => simp [afterFast]
          | dict kvs => simp [afterFast]

/-- C4: for task limit with no positional arguments, the engine behaves
exactly as the specification describes: the bound variable is the
request's variable if given, else the lexicographically first free symbol
of the parsed expression, else a symbol named "x"; the evaluation point is
`substitutions[variable]` when present, else 0, and is recorded in the
response metadata as the limit point; every substitution entry except the
chosen variable's is applied to the expression before the limit, the
chosen variable's entry never; and a present `dir` keyword argument is
forwarded to the limit operation.  The hypotheses require the `dir` entry,
if any, not to be Python `None`, and the limit operation never to return
Python `None` (as the real one never does). -/
theorem c4_limit_behaviour {E : Type} (lib : SympyLib E) (payload : ComputeRequest E)
    (htask : payload.task = "limit")
    (hargs : truthyList payload.args = false)
    (hdir : lookupStr ("dir") payload.kwargs ≠ some PyVal.pyNone)
    (hnn : ∀ xs kw2, lib.callTop ("limit") xs kw2 ≠ .ok PyVal.pyNone) :
    _do_compute lib payload = limitSpecResponse lib payload := by
  have hne : payload.task ≠ "evalf" := by rw [htask]; decide
  cases hs : lib.sympify payload.expr (computeSymNames payload) with
  | error e => simp only [_do_compute, limitSpecResponse, hs]
  | ok pv =>
    have hd : ∀ sF, dispatchFast lib payload pv ((strOpt payload.var).map lib.symbol) sF
        = (limitFastPath lib payload pv ((strOpt payload.var).map lib.symbol)).map
            (fun rp => (rp.1, some rp.2)) := by
      intro sF
      unfold dispatchFast
      rw [htask]
      simp [hargs]
    simp only [_do_compute, limitSpecResponse, hs, evalfExpr_of_ne lib payload pv hne, hd]
    cases hv : strOpt payload.var with
    | some s =>
      simp only [Option.map, limitFastPath, chooseLimitSym]
      exact c4_limit_tail lib payload (computeSymNames payload) pv (lib.symbol s) s
        (lib.symName_symbol s) hdir hnn
    | none =>
      simp only [Option.map, limitFastPath, chooseLimitSym]
      cases pv with
      | obj e0 =>
        cases hsort : sortByKey lib.symName (lib.freeSyms e0) with
        | nil =>
          simp only [hsort]
          exact c4_limit_tail lib payload (computeSymNames payload) (.obj e0)
            (lib.symbol ("x")) ("x") (lib.symName_symbol ("x")) hdir hnn
        | cons s0 rest =>
          simp only [hsort]
          exact c4_limit_tail lib payload (computeSymNames payload) (.obj e0)
            s0 (lib.symName s0) rfl hdir hnn
      | pyNone => simp [Except.map]
      | str s2 => simp [Except.map]
      | int n => simp [Except.map]
      | bool b => simp [Except.map]
      | list xs => simp [Except.map]
      | tuple xs => simp [Except.map]
      | dict kvs => simp [Except.map]

/-- C4 (witness): the limit behaviour theorem instantiated at a concrete
request with a variable, substitutions for the variable and another
symbol, and no directional hint. -/
theorem c4_limit_behaviour_witness :
    (reqC4.task = "limit"
      ∧ truthyList reqC4.args = false
      ∧ lookupStr ("dir") reqC4.kwargs ≠ some PyVal.pyNone
      ∧ ∀ xs kw2, TestLib.callTop ("limit") xs kw2 ≠ .ok PyVal.pyNone)
    ∧ _do_compute TestLib reqC4 = limitSpecResponse TestLib reqC4 :=
  ⟨⟨rfl, rfl, fun h => Option.noConfusion h,
    fun _ _ h => PyVal.noConfusion (Except.ok.inj h)⟩,
   c4_limit_behaviour TestLib reqC4 rfl rfl (fun h => Option.noConfusion h)
     (fun _ _ h => PyVal.noConfusion (Except.ok.inj h))⟩

/- ------------------------------------------------------------------ -/
/- C5                                                                  -/
/- ------------------------------------------------------------------ -/

theorem normalizeResp_task_irrel {E : Type} (lib : SympyLib E) (t1 t2 : String)
    (ev res : PyVal E) (lp : Option Int) (h1 : t1 ≠ "solve") (h2 : t2 ≠ "solve") :
    normalizeResp lib t1 ev res lp = normalizeResp lib t2 ev res lp := by
  simp only [normalizeResp, decide_eq_false h1, decide_eq_false h2]

theorem resolve_diff_alias {E : Type} (lib : SympyLib E) (f : GCallable E)
    (hf : lib.topLevel ("diff") = some (.callableObj f)) :
    _resolve_sympy_callable lib ("diff") = some f
    ∧ _resolve_sympy_callable lib ("derivative") = some f := by
  constructor
  · show (match lib.topLevel ("diff") with
      | some (.callableObj f2) => some f2
      | some .nonCallable => none
      | none => if strContains ("diff") (".") then lib.resolveDotted ("diff") else none) = some f
    rw [hf]
  · show (match lib.topLevel ("diff") with
      | some (.callableObj f2) => some f2
      | some .nonCallable => none
      | none => if strContains ("diff") (".") then lib.resolveDotted ("diff") else none) = some f
    rw [hf]

theorem compute_args_generic_call {E : Type} (lib : SympyLib E)
    (payload : ComputeRequest E) (f : GCallable E)
    (hne : payload.task ≠ "evalf")
    (hd : ∀ expr v s, dispatchFast lib payload expr v s = .ok (.pyNone, none))
    (hres : _resolve_sympy_callable lib payload.task = some f)
    (hargs : truthyList payload.args = true) :
    _do_compute lib payload =
      (match lib.sympify payload.expr (computeSymNames payload) with
       | .error e => .error e
       | .ok pv =>
         match f (pv :: (payload.args.getD []).map
             (fun a => _parse_arg lib (computeSymNames payload) a)) payload.kwargs with
         | .error e => .error e
         | .ok res1 => normalizeResp lib payload.task pv res1 none) := by
  cases hs : lib.sympify payload.expr (computeSymNames payload) with
  | error e => simp only [_do_compute, hs]
  | ok pv =>
    simp only [_do_compute, hs, evalfExpr_of_ne lib payload pv hne, hd, afterFast,
      genericPath, hres, hargs, if_true]

/-- C5 (counterexample): `task="derivative"` does not behave identically
to `task="diff"`: with no variable supplied, the diff request fails with
the MissingParameter error from the fast path, while the derivative
request (which has no fast-path entry) proceeds to generic probing and can
succeed -- it does on the concrete library. -/
theorem c5_counterexample :
    _do_compute TestLib reqC5diff = .error (.valueError ("Provide var for differentiation."))
    ∧ _do_compute TestLib reqC5deriv = .ok ⟨"num", some ("L<num>"), ⟨none, ["x"]⟩⟩ := by
  exact ⟨by decide, by decide⟩

/-- C5 (amended): a derivative request gives the same outcome as the diff
request (i) whenever positional arguments are supplied (both run the same
generic call, since the alias table sends derivative to diff), and
(ii) with no positional arguments, when a variable is given, no solveFor
and no keyword arguments are present, provided the library diff call on
(expression, variable) either succeeds with a non-None result or fails
with a non-TypeError error.  With no variable and no positional arguments
the two tasks genuinely diverge (see the counterexample). -/
theorem c5_derivative_vs_diff {E : Type} (lib : SympyLib E)
    (es : String) (varO : Option String) (subsO : Option (List (String × Int)))
    (sfO : Option String) (soO : Option Int) (kw : List (String × PyVal E))
    (argsO : Option (List (PyVal E))) (f : GCallable E)
    (hf : lib.topLevel ("diff") = some (.callableObj f)) :
    (truthyList argsO = true →
      _do_compute lib ⟨es, "diff", varO, subsO, sfO, soO, kw, argsO⟩
        = _do_compute lib ⟨es, "derivative", varO, subsO, sfO, soO, kw, argsO⟩)
    ∧ (∀ s pv r, truthyList argsO = false → strOpt sfO = none → kw = [] →
        strOpt varO = some s →
        lib.sympify es (computeSymNames
          (⟨es, "diff", varO, subsO, sfO, soO, kw, argsO⟩ : ComputeRequest E)) = .ok pv →
        f [pv, .obj (lib.symbol s)] [] = .ok r → r ≠ .pyNone →
        _do_compute lib ⟨es, "diff", varO, subsO, sfO, soO, kw, argsO⟩
          = _do_compute lib ⟨es, "derivative", varO, subsO, sfO, soO, kw, argsO⟩)
    ∧ (∀ s pv e2, truthyList argsO = false → strOpt sfO = none → kw = [] →
        strOpt varO = some s →
        lib.sympify es (computeSymNames
          (⟨es, "diff", varO, subsO, sfO, soO, kw, argsO⟩ : ComputeRequest E)) = .ok pv →
        f [pv, .obj (lib.symbol s)] [] = .error e2 → e2.isTypeError = false →
        _do_compute lib ⟨es, "diff", varO, subsO, sfO, soO, kw, argsO⟩ = .error e2
        ∧ _do_compute lib ⟨es, "derivative", varO, subsO, sfO, soO, kw, argsO⟩ = .error e2) := by
  obtain ⟨hresD, hresA⟩ := resolve_diff_alias lib f hf
  refine ⟨?_, ?_, ?_⟩
  · intro hargs
    have hdD : ∀ (expr : PyVal E) v s, dispatchFast lib
        ⟨es, "diff", varO, subsO, sfO, soO, kw, argsO⟩ expr v s = .ok (.pyNone, none) := by
      intro expr v s
      unfold dispatchFast
      simp [hargs]
    have hdA : ∀ (expr : PyVal E) v s, dispatchFast lib
        ⟨es, "derivative", varO, subsO, sfO, soO, kw, argsO⟩ expr v s = .ok (.pyNone, none) :=
      fun _ _ _ => rfl
    rw [compute_args_generic_call lib ⟨es, "diff", varO, subsO, sfO, soO, kw, argsO⟩ f
        (show ("diff" : String) ≠ "evalf" from by decide) hdD hresD hargs,
      compute_args_generic_call lib ⟨es, "derivative", varO, subsO, sfO, soO, kw, argsO⟩ f
        (show ("derivative" : String) ≠ "evalf" from by decide) hdA hresA hargs]
    rfl
  · intro s pv r hargs hsf hkw hv hparse hcall hrn
    subst hkw
    have hct : SympyLib.callTop lib ("diff") [pv, .obj (lib.symbol s)] [] = .ok r := by
      unfold SympyLib.callTop
      rw [hf]
      exact hcall
    have hdispD : dispatchFast lib ⟨es, "diff", varO, subsO, sfO, soO, [], argsO⟩ pv
        (some (lib.symbol s)) (some (lib.symbol s)) = .ok (r, none) := by
      unfold dispatchFast
      simp [hargs, hct, Except.map]
    have hl : _do_compute lib ⟨es, "diff", varO, subsO, sfO, soO, [], argsO⟩
        = normalizeResp lib ("diff") pv r none := by
      simp only [_do_compute, hparse,
        evalfExpr_of_ne lib ⟨es, "diff", varO, subsO, sfO, soO, [], argsO⟩ pv
          (show ("diff" : String) ≠ "evalf" from by decide),
        hv, hsf, Option.map, hdispD]
      cases r with
      | pyNone => exact absurd rfl hrn
      | str s0 => rfl
      | int n => rfl
      | bool b => rfl
      | obj e0 => rfl
      | list xs => rfl
      | tuple xs => rfl
      | dict kvs => rfl
    have hprobe : probeConventions ("derivative") f pv (some (lib.symbol s)) none [] = .ok r := by
      unfold probeConventions
      simp [hcall]
    have hprobe2 : probeConventions
        ((⟨es, "derivative", varO, subsO, sfO, soO, [], argsO⟩ : ComputeRequest E).task) f pv
        ((strOpt varO).map lib.symbol) ((strOpt sfO).map lib.symbol)
        (setdefaultNoconds
          ((⟨es, "derivative", varO, subsO, sfO, soO, [], argsO⟩ : ComputeRequest E).task) []) = .ok r := by
      simp only [hv, hsf, Option.map]
      exact hprobe
    have hgen : genericPath lib ⟨es, "derivative", varO, subsO, sfO, soO, [], argsO⟩ pv
        (computeSymNames (⟨es, "derivative", varO, subsO, sfO, soO, [], argsO⟩ : ComputeRequest E))
        = .ok r := by
      unfold genericPath
      rw [show _resolve_sympy_callable lib
        ((⟨es, "derivative", varO, subsO, sfO, soO, [], argsO⟩ : ComputeRequest E).task)
        = some f from hresA]
      simp only [hargs, Bool.false_eq_true, if_false, hprobe2]
    have hparseA : lib.sympify es (computeSymNames
        (⟨es, "derivative", varO, subsO, sfO, soO, [], argsO⟩ : ComputeRequest E)) = .ok pv := hparse
    have hr : _do_compute lib ⟨es, "derivative", varO, subsO, sfO, soO, [], argsO⟩
        = normalizeResp lib ("derivative") pv r none := by
      have hdA : ∀ (v2 s2 : Option E), dispatchFast lib
          ⟨es, "derivative", varO, subsO, sfO, soO, [], argsO⟩ pv v2 s2 = .ok (.pyNone, none) :=
        fun _ _ => rfl
      simp only [_do_compute, hparseA,
        evalfExpr_of_ne lib ⟨es, "derivative", varO, subsO, sfO, soO, [], argsO⟩ pv
          (show ("derivative" : String) ≠ "evalf" from by decide),
        hdA, afterFast, hgen]
    rw [hl, hr]
    exact normalizeResp_task_irrel lib ("diff") ("derivative") pv r none (by decide) (by decide)
  · intro s pv e2 hargs hsf hkw hv hparse hcall hte
    subst hkw
    have hct : SympyLib.callTop lib ("diff") [pv, .obj (lib.symbol s)] [] = .error e2 := by
      unfold SympyLib.callTop
      rw [hf]
      exact hcall
    have hdispD : dispatchFast lib ⟨es, "diff", varO, subsO, sfO, soO, [], argsO⟩ pv
        (some (lib.symbol s)) (some (lib.symbol s)) = .error e2 := by
      unfold dispatchFast
      simp [hargs, hct, Except.map]
    constructor
    · simp only [_do_compute, hparse,
        evalfExpr_of_ne lib ⟨es, "diff", varO, subsO, sfO, soO, [], argsO⟩ pv
          (show ("diff" : String) ≠ "evalf" from by decide),
        hv, hsf, Option.map, hdispD]
    · have hprobe : probeConventions ("derivative") f pv (some (lib.symbol s)) none []
          = .error e2 := by
        unfold probeConventions
        simp [hcall, hte]
      have hprobe2 : probeConventions
          ((⟨es, "derivative", varO, subsO, sfO, soO, [], argsO⟩ : ComputeRequest E).task) f pv
          ((strOpt varO).map lib.symbol) ((strOpt sfO).map lib.symbol)
          (setdefaultNoconds
            ((⟨es, "derivative", varO, subsO, sfO, soO, [], argsO⟩ : ComputeRequest E).task) [])
          = .error e2 := by
        simp only [hv, hsf, Option.map]
        exact hprobe
      have hgen : genericPath lib ⟨es, "derivative", varO, subsO, sfO, soO, [], argsO⟩ pv
          (computeSymNames
            (⟨es, "derivative", varO, subsO, sfO, soO, [], argsO⟩ : ComputeRequest E))
          = .error e2 := by
        unfold genericPath
        rw [show _resolve_sympy_callable lib
          ((⟨es, "derivative", varO, subsO, sfO, soO, [], argsO⟩ : ComputeRequest E).task)
          = some f from hresA]
        simp only [hargs, Bool.false_eq_true, if_false, hprobe2]
      have hparseA : lib.sympify es (computeSymNames
          (⟨es, "derivative", varO, subsO, sfO, soO, [], argsO⟩ : ComputeRequest E)) = .ok pv :=
        hparse
      have hdA : ∀ (v2 s2 : Option E), dispatchFast lib
          ⟨es, "derivative", varO, subsO, sfO, soO, [], argsO⟩ pv v2 s2 = .ok (.pyNone, none) :=
        fun _ _ => rfl
      simp only [_do_compute, hparseA,
        evalfExpr_of_ne lib ⟨es, "derivative", varO, subsO, sfO, soO, [], argsO⟩ pv
          (show ("derivative" : String) ≠ "evalf" from by decide),
        hdA, afterFast, hgen]

/-- C5 (witness): the amended equivalence at a concrete diff/derivative
pair with a variable given. -/
theorem c5_derivative_vs_diff_witness :
    (truthyList (none : Option (List (PyVal TE))) = false
      ∧ strOpt (none : Option String) = none
      ∧ ([] : List (String × PyVal TE)) = []
      ∧ strOpt (some ("x")) = some ("x")
      ∧ TestLib.topLevel ("diff") = some (.callableObj diffCallableT)
      ∧ TestLib.sympify ("x") (computeSymNames
          (⟨"x", "diff", some ("x"), none, none, some 6, [], none⟩ : ComputeRequest TE))
          = .ok (.obj (.sym ("x")))
      ∧ diffCallableT [.obj (.sym ("x")), .obj (.sym ("x"))] [] = .ok (.obj (.num 1)))
    ∧ _do_compute TestLib ⟨"x", "diff", some ("x"), none, none, some 6, [], none⟩
        = _do_compute TestLib ⟨"x", "derivative", some ("x"), none, none, some 6, [], none⟩ :=
  ⟨⟨rfl, rfl, rfl, rfl, rfl, rfl, rfl⟩,
   (c5_derivative_vs_diff TestLib ("x") (some ("x")) none none (some 6) [] none diffCallableT
      rfl).2.1
     "x" (.obj (.sym ("x"))) (.obj (.num 1)) rfl rfl rfl rfl rfl rfl
     (fun h => PyVal.noConfusion h)⟩

/- ------------------------------------------------------------------ -/
/- C7                                                                  -/
/- ------------------------------------------------------------------ -/

/-- C7 (counterexample): the solve fast path produces a raw list result
(no free-variable concept), yet the successful response's `free_symbols`
metadata is the non-empty symbol list of the parsed expression -- the
serializer inspects the expression object, never the result object. -/
theorem c7_counterexample :
    solveFastPath TestLib (.obj (.add (.mul (.sym ("x")) (.sym ("x"))) (.num (-4)))) none
      = .ok (.list [])
    ∧ _do_compute TestLib reqC7 = .ok ⟨"list", some ("L<list>"), ⟨none, ["x"]⟩⟩
    ∧ (["x"] : List String) ≠ [] :=
  ⟨rfl, by decide, by decide⟩

theorem normalizeResp_free_symbols {E : Type} (lib : SympyLib E) (task : String)
    (ev res : PyVal E) (lp : Option Int) (resp : ComputeResponse)
    (h : normalizeResp lib task ev res lp = .ok resp) :
    resp.meta.free_symbols = fsOf lib ev := by
  by_cases hc : (decide (task = "solve") && isListP res) = true
  · simp only [normalizeResp, hc, if_true] at h
    cases hl : lib.latexR res with
    | error e => rw [hl] at h; exact Except.noConfusion h
    | ok l => rw [hl] at h; rw [← Except.ok.inj h]
  · have hc2 := Bool.eq_false_iff.mpr hc
    simp only [normalizeResp, hc2, Bool.false_eq_true, if_false] at h
    rw [← Except.ok.inj h]

theorem afterFast_free_symbols {E : Type} (lib : SympyLib E)
    (payload : ComputeRequest E) (symNames : List String) (ev res0 : PyVal E)
    (lp : Option Int) (resp : ComputeResponse)
    (h : afterFast lib payload symNames ev res0 lp = .ok resp) :
    resp.meta.free_symbols = fsOf lib ev := by
  unfold afterFast at h
  cases hres : (match res0 with
      | PyVal.pyNone => genericPath lib payload ev symNames
      | r => .ok r) with
  | error e => rw [hres] at h; exact Except.noConfusion h
  | ok res1 =>
    rw [hres] at h
    exact normalizeResp_free_symbols lib payload.task ev res1 lp resp h

/-- C7 (amended): every successful response's `free_symbols` metadata is
the lexicographically sorted name list of the free symbols of the
expression object held by the engine at serialization time: the parsed
input expression for every task except evalf, and the substituted
expression for evalf with substitutions; it is the empty list exactly when
that expression object exposes no free-variable concept -- the result
object is never consulted. -/
theorem c7_free_symbols {E : Type} (lib : SympyLib E) (payload : ComputeRequest E)
    (pv : PyVal E) (resp : ComputeResponse)
    (hparse : lib.sympify payload.expr (computeSymNames payload) = .ok pv)
    (hok : _do_compute lib payload = .ok resp) :
    (payload.task ≠ "evalf" → resp.meta.free_symbols = fsOf lib pv)
    ∧ (∀ pv2, payload.task = "evalf" → evalfExpr lib payload pv = .ok pv2 →
        resp.meta.free_symbols = fsOf lib pv2) := by
  constructor
  · intro hne
    simp only [_do_compute, hparse, evalfExpr_of_ne lib payload pv hne] at hok
    cases hdisp : dispatchFast lib payload pv ((strOpt payload.var).map lib.symbol)
        (match strOpt payload.solve_for with
         | some s => some (lib.symbol s)
         | none => (strOpt payload.var).map lib.symbol) with
    | error e => rw [hdisp] at hok; exact Except.noConfusion hok
    | ok rp =>
      obtain ⟨res0, lp⟩ := rp
      rw [hdisp] at hok
      exact afterFast_free_symbols lib payload (computeSymNames payload) pv res0 lp resp hok
  · intro pv2 hev hevok
    simp only [_do_compute, hparse, hevok] at hok
    cases hdisp : dispatchFast lib payload pv2 ((strOpt payload.var).map lib.symbol)
        (match strOpt payload.solve_for with
         | some s => some (lib.symbol s)
         | none => (strOpt payload.var).map lib.symbol) with
    | error e => rw [hdisp] at hok; exact Except.noConfusion hok
    | ok rp =>
      obtain ⟨res0, lp⟩ := rp
      rw [hdisp] at hok
      exact afterFast_free_symbols lib payload (computeSymNames payload) pv2 res0 lp resp hok

/-- C7 (witness): the amended free-symbols law at the concrete solve
request whose result is a raw list. -/
theorem c7_free_symbols_witness :
    (TestLib.sympify reqC7.expr (computeSymNames reqC7)
        = .ok (.obj (.add (.mul (.sym ("x")) (.sym ("x"))) (.num (-4))))
      ∧ _do_compute TestLib reqC7 = .ok ⟨"list", some ("L<list>"), ⟨none, ["x"]⟩⟩
      ∧ reqC7.task ≠ "evalf")
    ∧ (⟨"list", some ("L<list>"), ⟨none, ["x"]⟩⟩ : ComputeResponse).meta.free_symbols
        = fsOf TestLib (.obj (.add (.mul (.sym ("x")) (.sym ("x"))) (.num (-4)))) :=
  ⟨⟨rfl, by decide, by decide⟩,
   (c7_free_symbols TestLib reqC7 (.obj (.add (.mul (.sym ("x")) (.sym ("x"))) (.num (-4))))
     ⟨"list", some ("L<list>"), ⟨none, ["x"]⟩⟩ rfl (by decide)).1 (by decide)⟩
